import Mathlib

/-!
# A shallow embedding of nnvision's monkey data loaders and multi-readout layers

This file embeds, in Lean 4, the parts of the `KonstantinWilleke/nnvision`
repository that the verified claims are about:

* `nnvision/datasets/monkey_loaders.py`: `monkey_static_loader`,
  `monkey_mua_sua_loader` and `monkey_static_loader_closed_loop`;
* `nnvision/models/readouts.py`: the `MultiReadout` dispatch, the
  `Multiple*` readout-factory constructors and
  `MultipleSharedMultiHeadAttention2d.__init__` / `.forward`.

Conventions of the embedding:

* Python `dict`s are association lists (`PyDict`), with insertion-order
  iteration and overwrite-on-repeated-key semantics (`pyInsert`).
* numpy float arrays are nested lists of rationals (`NpArr`, either a 2-d or
  a 3-d array); shape errors that numpy would reject are threaded through
  `Except PyErr`.
* Functions imported from modules that are not part of the given sources
  (`nnvision/datasets/utility.py`, `nnfabrik`, `neuralpredictors`, `scipy`)
  are abstract parameters, collected in the `Ext` structure: the embedding
  proves nothing about their internals, only about how the repository's own
  code composes them.  An `ImageCache` is abstracted to the arguments the
  loaders construct it with and an allocation identity (`CacheSpec`), and a
  `DataLoader` to the arguments `get_cached_loader` receives (`Loader`).
* Exceptions raised by the Python code are the `Except PyErr` error channel.

The file is organised as definitions first, then all theorems.
-/

namespace NNVision

/-- Python exception kinds that the embedded code can raise. -/
inductive PyErr where
  | valueError
  | keyError
  | typeError
  | indexError
  | nameError
  | attributeError
  /-- a numpy shape/axis mismatch (e.g. `transpose((2,0,1))` on a 2-d array,
  or concatenating arrays of different dimensionality) -/
  | npError
  /-- an einops shape mismatch (number of channels not divisible by `heads`) -/
  | einopsError
  deriving DecidableEq, Repr

/-! ## Python dictionaries as association lists -/

/-- A Python `dict` with `String` keys: an association list in insertion
order, with unique keys maintained by `pyInsert`. -/
abbrev PyDict (α : Type) := List (String × α)

/-- `d[k] = v`: overwrite the value if `k` is already a key, otherwise append
the new binding at the end (Python dicts preserve insertion order). -/
def pyInsert (d : PyDict α) (k : String) (v : α) : PyDict α :=
  if d.any (fun p => p.1 == k) then
    d.map (fun p => if p.1 == k then (k, v) else p)
  else
    d ++ [(k, v)]

/-- `d[k]` as an `Option` (the first binding of `k`). -/
def pyGet (d : PyDict α) (k : String) : Option α :=
  List.lookup k d

/-! ## numpy helpers: boolean masks, `np.isin`, nested-list arrays -/

/-- Boolean-mask selection `a[mask]` along the leading axis (numpy requires
the mask length to match; the extra entries of either list are dropped,
theorems add the length hypothesis where it matters). -/
def maskSel (mask : List Bool) (rows : List α) : List α :=
  ((mask.zip rows).filter (fun p => p.1)).map Prod.snd

/-- `np.isin(ids, pool)`: elementwise membership of `ids` in `pool`. -/
def npIsin (ids : List Int) (pool : List Int) : List Bool :=
  ids.map (fun x => decide (x ∈ pool))

/-- A numpy float array of the shapes the loaders handle: 2-d or 3-d. -/
inductive NpArr where
  | dim2 (rows : List (List ℚ))
  | dim3 (a : List (List (List ℚ)))
  deriving DecidableEq, Repr

namespace NpArr

/-- Length of the leading axis. -/
def outerLen : NpArr → Nat
  | dim2 rows => rows.length
  | dim3 a => a.length

/-- Boolean-mask selection on the leading axis, `a[mask]`. -/
def maskOuter (mask : List Bool) : NpArr → NpArr
  | dim2 rows => dim2 (maskSel mask rows)
  | dim3 a => dim3 (maskSel mask a)

/-- Integer-array (fancy) indexing on the leading axis, `a[idx]`.
`idx` is produced by `get_fraction_of_training_images` and is assumed in
range; out-of-range indices return an empty row. -/
def idxOuter (idx : List Nat) : NpArr → NpArr
  | dim2 rows => dim2 (idx.map (fun i => rows.getD i []))
  | dim3 a => dim3 (idx.map (fun i => a.getD i []))

end NpArr

/-- Entry `a[j][k][i]` of a 3-d nested list, with default `0` out of range
(numpy arrays are rectangular, so in-range access never sees the default). -/
def get3 (a : List (List (List ℚ))) (j k i : Nat) : ℚ :=
  ((a.getD j []).getD k []).getD i 0

/-- The shape `(d0, d1, d2)` of a rectangular 3-d nested list. -/
def dims3 (a : List (List (List ℚ))) : Nat × Nat × Nat :=
  (a.length, (a.getD 0 []).length, ((a.getD 0 []).getD 0 []).length)

/-- Rectangularity of a 3-d nested list (always true of numpy arrays),
as a decidable Bool so witnesses can evaluate it. -/
def rect3 (a : List (List (List ℚ))) : Bool :=
  let d1 := (a.getD 0 []).length
  let d2 := ((a.getD 0 []).getD 0 []).length
  a.all (fun m => m.length == d1 && m.all (fun r => r.length == d2))

/-- `arr.transpose((2, 0, 1))`: axis 2 becomes the leading axis
(monkey_loaders.py lines 171-172: puts trials first). -/
def transpose201 (a : List (List (List ℚ))) : List (List (List ℚ)) :=
  (List.range (dims3 a).2.2).map (fun i =>
    (List.range (dims3 a).1).map (fun j =>
      (List.range (dims3 a).2.1).map (fun k => get3 a j k i)))

/-- `np.sum` / `np.mean` over a list, selected by `avg`
(`(np.mean if avg else np.sum)`; `np.mean` divides by the length). -/
def npAgg (avg : Bool) (l : List ℚ) : ℚ :=
  if avg then l.sum / l.length else l.sum

/-- `(np.mean if avg else np.sum)(t[:, :, time_bins_sum], axis=-1)` applied
after `transpose201`: select the listed time bins on the last axis and
reduce them (monkey_loaders.py lines 174-176). -/
def reduceBins (avg : Bool) (bins : List Nat) (a : List (List (List ℚ))) :
    List (List ℚ) :=
  (transpose201 a).map (fun m => m.map (fun row =>
    npAgg avg (bins.map (fun b => row.getD b 0))))

/-- `time_bins_sum` as passed by the caller: either a Python int or an
iterable of bin indices (`None` is not modeled: `tuple(range(None))` on
line 88 would raise before any use). -/
abbrev TimeBins := Sum Nat (List Nat)

/-- Lines 87-88: a non-iterable `time_bins_sum = t` becomes
`tuple(range(t))`; an iterable is kept as is. -/
def expandTBS : TimeBins → List Nat
  | .inl t => List.range t
  | .inr l => l

/-- Lines 163-176 of `monkey_static_loader`, processing the train/test
response pair of one session:

* for dataset `'PlosCB19_V1'` the responses are returned unchanged;
* otherwise, a 2-d `responses_test` promotes both arrays with a leading
  axis (`[None, ...]`, lines 164-166; the warning of lines 168-169 has no
  observable effect and is not modeled); mismatched dimensionalities make
  the subsequent `transpose((2, 0, 1))` raise in numpy, modeled `npError`;
* then both arrays are transposed to put trials first and reduced over the
  listed time bins with `np.sum` (`avg=False`) or `np.mean` (`avg=True`).

After the line-88 expansion `time_bins_sum` is never `None`, so the
line-174 guard always takes the reducing branch. -/
def processPair (dataset : String) (tbs : List Nat) (avg : Bool)
    (tr te : NpArr) : Except PyErr (NpArr × NpArr) :=
  if dataset = "PlosCB19_V1" then .ok (tr, te)
  else
    match tr, te with
    | .dim2 mt, .dim2 ms =>
        .ok (.dim2 (reduceBins avg tbs [mt]), .dim2 (reduceBins avg tbs [ms]))
    | .dim3 at3, .dim3 as3 =>
        .ok (.dim2 (reduceBins avg tbs at3), .dim2 (reduceBins avg tbs as3))
    | _, _ => .error .npError

/-! ## Crops -/

/-- A four-sided crop `[(crop_top, crop_bottom), (crop_left, crop_right)]`. -/
abbrev CropQ := List (Int × Int)

/-- The `crop` argument: a single int or a list of `(side, side)` tuples. -/
inductive CropArg where
  | int (c : Int)
  | tuples (l : CropQ)
  deriving DecidableEq, Repr

/-- Lines 90-91 (and 298-299, 561-562): an integer crop `c` becomes
`[(c, c), (c, c)]`; a list of tuples is left unchanged. -/
def normalizeCrop : CropArg → CropQ
  | .int c => [(c, c), (c, c)]
  | .tuples l => l

/-- `np.clip(training_crop, -999, 0)` (line 713), elementwise on a crop. -/
def cropClipNeg (c : CropQ) : CropQ :=
  c.map (fun p => (max (-999) (min p.1 0), max (-999) (min p.2 0)))

/-- Elementwise crop subtraction, `crop - clipped` (line 713). -/
def cropSub (a b : CropQ) : CropQ :=
  a.zipWith (fun p q => (p.1 - q.1, p.2 - q.2)) b

/-! ## The data-loader models

The pickled content of a neuronal data file is a `Session`; the loaders
turn it into three `Loader`s keyed by `str(raw_data['session_id'])`. -/

/-- An opaque stand-in for a stimulus-location value (only passed to the
external `get_crop_from_stimulus_location`). -/
abbrev StimLoc := Nat

/-- The external functions the loaders call but whose code is not among the
given sources (`nnvision/datasets/utility.py`, `scipy`): kept abstract. -/
structure Ext where
  /-- `get_validation_split(n_images=q, train_frac, seed)`: `train_frac`
  and `seed` are captured; applied to `n_images * train_test_split`. -/
  validationSplit : ℚ → List Int × List Int
  /-- `get_fraction_of_training_images(image_ids, fraction, seed)`:
  the returned index array `idx_out`. -/
  fracSelect : List Int → ℚ → Option Int → List Nat
  /-- `get_crop_from_stimulus_location(loc, crop, monitor_scaling_factor)`
  (the scaling factor is captured). -/
  cropFromStimLoc : Option StimLoc → CropQ → CropQ
  /-- `scipy.stats.zscore` on a `(horizontal, vertical)` eye-position
  array (lines 370, 372). -/
  zscore : List (ℚ × ℚ) → List (ℚ × ℚ)

/-- Raw eye-position entries of a pickle file, when present
(lines 363-367 of `monkey_mua_sua_loader`). -/
structure EyeRaw where
  h_train : List ℚ
  v_train : List ℚ
  h_test : List ℚ
  v_test : List ℚ
  deriving DecidableEq, Repr

/-- The pickled content of one neuronal data file (lines 153-161). -/
structure Session where
  subject_id : Int
  session_id : Int
  training_responses : NpArr
  testing_responses : NpArr
  training_image_ids : List Int
  testing_image_ids : List Int
  eye : Option EyeRaw := none
  deriving DecidableEq, Repr

/-- The identity and construction arguments of one `ImageCache`
(path/subsample/scale do not vary across the claims and are omitted). -/
structure CacheSpec where
  id : Nat
  crop : CropQ
  normalize : Bool
  deriving DecidableEq, Repr

/-- The arguments a call of `get_cached_loader` receives: the image ids, the
response rows, optional eye positions, batch size, shuffle flag, the shared
image cache and the repeat condition.  `shuffle = none` means the argument
was omitted or passed as `None`. -/
structure Loader where
  ids : List Int
  rows : NpArr
  eye : Option (List (ℚ × ℚ)) := none
  batch : Option Nat
  shuffle : Option Bool
  cacheId : Nat
  repeatCond : Option (List Int) := none
  deriving DecidableEq, Repr

/-- `dataloaders = {'train': {}, 'validation': {}, 'test': {}}` (line 85). -/
def emptyTop : PyDict (PyDict Loader) :=
  [("train", []), ("validation", []), ("test", [])]

/-- `dataloaders[name]`, defaulting to an empty dict. -/
def getInner (top : PyDict (PyDict Loader)) (name : String) : PyDict Loader :=
  (pyGet top name).getD []

/-- `dataloaders[name][k] = l`: one nested dict update. -/
def insertAt (top : PyDict (PyDict Loader)) (name k : String) (l : Loader) :
    PyDict (PyDict Loader) :=
  pyInsert top name (pyInsert (getInner top name) k l)

/-- Lines 203-205: `dataloaders["train"][data_key] = train_loader` and the
analogous updates for validation and test. -/
def insertSession (top : PyDict (PyDict Loader)) (k : String)
    (tr va te : Loader) : PyDict (PyDict Loader) :=
  insertAt (insertAt (insertAt top "train" k tr) "validation" k va) "test" k te

/-- The `for i, datapath in enumerate(neuronal_data_files)` loop shared by
`monkey_static_loader` and `monkey_mua_sua_loader`: each session yields a
train/validation/test loader triple (and a next loop state), stored in the
nested dict under `str(raw_data['session_id'])`. -/
def loopSessions {σ : Type}
    (step : σ → Nat → Session → Except PyErr (Loader × Loader × Loader × σ)) :
    List Session → Nat → σ → PyDict (PyDict Loader) →
    Except PyErr (PyDict (PyDict Loader) × σ)
  | [], _, st, top => Except.ok (top, st)
  | s :: rest, i, st, top =>
    match step st i s with
    | .error e => .error e
    | .ok (tr, va, te, st2) =>
      loopSessions step rest (i + 1) st2
        (insertSession top (toString s.session_id) tr va te)

/-- `P` holds of every loader stored anywhere in the nested dict. -/
def allLoaders (P : Loader → Prop) (top : PyDict (PyDict Loader)) : Prop :=
  ∀ p ∈ top, ∀ q ∈ p.2, P q.2

/-- `image_id_offset` (lines 136-144). -/
def imgIdOffset (dataset : String) : Int :=
  if dataset = "PlosCB19_V1" then 1 else 0

/-- `train_test_split` (lines 136-144): 0.8 for `'PlosCB19_V1'`, else 1. -/
def trainTestSplit (dataset : String) : ℚ :=
  if dataset = "PlosCB19_V1" then (4 : ℚ) / 5 else 1

/-- Python `int()` applied to a float: truncation toward zero. -/
def pyInt (q : ℚ) : Int := if q < 0 then ⌈q⌉ else ⌊q⌋

/-- The result of a loader call: the early (or `return_data_info`) return of
the data-info dict, whose contents no claim concerns, or the nested
dataloader dict together with the `ImageCache` allocations of the call. -/
inductive MSLOut where
  | dataInfo
  | loaders (top : PyDict (PyDict Loader)) (allocs : List CacheSpec)
  deriving DecidableEq, Repr

/-- The arguments of `monkey_static_loader` that the model distinguishes
(`dataset_config`, paths and hashing only feed the abstracted statistics
file, summarised by `statsExists`). -/
structure MSLArgs where
  dataset : String
  files : List Session
  batch_size : Nat
  time_bins_sum : TimeBins
  avg : Bool
  crop : CropArg
  stimulus_location : Option StimLoc
  image_frac : Sum ℚ (List ℚ)
  image_selection_seed : Option Int
  randomize_image_selection : Bool
  img_mean : Option ℚ
  statsExists : Bool
  return_data_info : Bool
  store_data_info : Bool
  /-- `len(cache)`: the number of images in the image-cache folder. -/
  n_images : Nat
  train_shuffle : Bool
  validation_shuffle : Bool

/-- Lines 96-97: a non-iterable `image_frac` is replicated per data file. -/
def mslFracs (files : List Session) : Sum ℚ (List ℚ) → List ℚ
  | .inl q => files.map (fun _ => q)
  | .inr l => l

/-- Lines 153-183 for one session of `monkey_static_loader`: subtract the
image-id offset, process the response pair, and apply the
`image_frac` subsampling (lines 178-183), returning the training ids/rows
that enter the train/validation split, the test ids/rows, and the value of
the (mutated) `image_selection_seed` after this iteration.
`int(None * frac)` in the `randomize_image_selection` branch is a
`TypeError`. -/
def mslPrepared (ext : Ext) (dataset : String) (tbs : List Nat) (avg : Bool)
    (randomize : Bool) (frac : ℚ) (seedIn : Option Int) (s : Session) :
    Except PyErr (List Int × NpArr × List Int × NpArr × Option Int) :=
  let off := imgIdOffset dataset
  let ids0 := s.training_image_ids.map (fun x => x - off)
  let testIds := s.testing_image_ids.map (fun x => x - off)
  match processPair dataset tbs avg s.training_responses s.testing_responses with
  | .error e => .error e
  | .ok (rtr, rte) =>
    if frac < 1 then
      match (if randomize then
               match seedIn with
               | none => Except.error PyErr.typeError
               | some sd => Except.ok (some (pyInt ((sd : ℚ) * frac)))
             else Except.ok seedIn : Except PyErr (Option Int)) with
      | .error e => .error e
      | .ok seedEff =>
        let idx := ext.fracSelect ids0 frac seedEff
        Except.ok (idx.map (fun i => ids0.getD i 0), rtr.idxOuter idx,
                   testIds, rte, seedEff)
    else
      Except.ok (ids0, rtr, testIds, rte, seedIn)

/-- Lines 185-205 for one session of `monkey_static_loader`: the
membership split of the training ids into train/validation
(`np.isin`, lines 185-186), the row selections (lines 188-192), and the
three `get_cached_loader` calls (lines 194-201), all sharing the one cache. -/
def mslStep (ext : Ext) (A : MSLArgs) (tbs : List Nat) (fracs : List ℚ)
    (allTrain allVal : List Int) (cacheId : Nat) :
    Option Int → Nat → Session →
    Except PyErr (Loader × Loader × Loader × Option Int) :=
  fun seedIn i s =>
    match fracs[i]? with
    | none => .error .indexError
    | some frac =>
      match mslPrepared ext A.dataset tbs A.avg A.randomize_image_selection
          frac seedIn s with
      | .error e => .error e
      | .ok (ids, rows, testIds, testRows, seedOut) =>
        let trainMask := npIsin ids allTrain
        let valMask := npIsin ids allVal
        let tr : Loader :=
          { ids := maskSel trainMask ids, rows := rows.maskOuter trainMask,
            batch := some A.batch_size, shuffle := some A.train_shuffle,
            cacheId := cacheId }
        let va : Loader :=
          { ids := maskSel valMask ids, rows := rows.maskOuter valMask,
            batch := some A.batch_size, shuffle := some A.validation_shuffle,
            cacheId := cacheId }
        let te : Loader :=
          { ids := testIds, rows := testRows, batch := none,
            shuffle := some false, cacheId := cacheId,
            repeatCond := some testIds }
        Except.ok (tr, va, te, seedOut)

/-- The tail of `monkey_static_loader` once its single `ImageCache` exists:
the validation split (lines 146-148), the session loop (lines 151-205), the
`store_data_info` branch (lines 208-228, which raises `IndexError` through
`list(...)[0]` when the train dict is empty and otherwise only writes the
statistics file), and the final return (line 230). -/
def runMSL (ext : Ext) (A : MSLArgs) (tbs : List Nat) (fracs : List ℚ)
    (cache : CacheSpec) : Except PyErr MSLOut :=
  match loopSessions (mslStep ext A tbs fracs
      (ext.validationSplit ((A.n_images : ℚ) * trainTestSplit A.dataset)).1
      (ext.validationSplit ((A.n_images : ℚ) * trainTestSplit A.dataset)).2
      cache.id) A.files 0 A.image_selection_seed emptyTop with
  | .error e => .error e
  | .ok (top, _) =>
    if A.store_data_info && !A.statsExists && (getInner top "train").isEmpty then
      Except.error PyErr.indexError
    else if A.return_data_info then Except.ok MSLOut.dataInfo
    else Except.ok (MSLOut.loaders top [cache])

/-- `monkey_static_loader` (monkey_loaders.py lines 17-230).  The argument
normalisations (lines 87-97), the statistics-file branch (lines 107-129)
constructing exactly one `ImageCache` on each path that reaches the session
loop — normalized when statistics or an explicit `img_mean` exist, otherwise
unnormalized followed by `zscore_images` (a cache-internal statistics update
with no further allocation) — and the shared tail `runMSL`. -/
def monkeyStaticLoader (ext : Ext) (A : MSLArgs) : Except PyErr MSLOut :=
  let tbs := expandTBS A.time_bins_sum
  let crop1 := normalizeCrop A.crop
  let crop2 := match A.stimulus_location with
    | some loc => ext.cropFromStimLoc (some loc) crop1
    | none => crop1
  let fracs := mslFracs A.files A.image_frac
  if A.statsExists then
    if A.return_data_info then Except.ok MSLOut.dataInfo
    else runMSL ext A tbs fracs { id := 0, crop := crop2, normalize := true }
  else
    match A.img_mean with
    | some _ => runMSL ext A tbs fracs { id := 0, crop := crop2, normalize := true }
    | none => runMSL ext A tbs fracs { id := 0, crop := crop2, normalize := false }

/-! ### `monkey_mua_sua_loader` -/

/-- The pickled content of one MUA data file (lines 377-389). -/
structure MuaData where
  session_id : Int
  /-- `len(mua_data["unit_ids"])` -/
  unit_count : Nat
  training_responses : NpArr
  testing_responses : NpArr
  training_image_ids : List Int
  testing_image_ids : List Int
  deriving DecidableEq, Repr

/-- The arguments of `monkey_mua_sua_loader` the model distinguishes. -/
structure MuaArgs where
  dataset : String
  files : List Session
  mua_files : List MuaData
  batch_size : Nat
  time_bins_sum : TimeBins
  avg : Bool
  crop : CropArg
  statsExists : Bool
  return_data_info : Bool
  store_data_info : Bool
  n_images : Nat
  /-- `mua_selector[data_key]` as a total function when given. -/
  mua_selector : Option (String → List Bool)
  add_eye_movement : Option Bool

/-- Python truthiness of the `add_eye_movement` default-`None` flag. -/
def truthyOB (o : Option Bool) : Bool := o.getD false

/-- `np.concatenate([a, b], axis=0)`: requires equal dimensionality. -/
def npConcat0 : NpArr → NpArr → Except PyErr NpArr
  | .dim2 a, .dim2 b => .ok (.dim2 (a ++ b))
  | .dim3 a, .dim3 b => .ok (.dim3 (a ++ b))
  | _, _ => .error .npError

/-- Lines 400-402: `if len(responses_train.shape) < 3`, promote both
arrays with a leading axis.  A 2-d train with a 3-d test would make the
test 4-d; later operations reject it (`npError`). -/
def muaEnsure3 : NpArr → NpArr → Except PyErr (NpArr × NpArr)
  | .dim2 mt, .dim2 ms => .ok (.dim3 [mt], .dim3 [ms])
  | .dim2 _, .dim3 _ => .error .npError
  | .dim3 a, .dim2 ms => .ok (.dim3 a, .dim2 ms)
  | .dim3 a, .dim3 b => .ok (.dim3 a, .dim3 b)

/-- Lines 407-413 of `monkey_mua_sua_loader`: unlike `monkey_static_loader`
there is no 2-d promotion here, so for a non-`'PlosCB19_V1'` dataset a
non-3-d response array makes `transpose((2,0,1))` raise. -/
def processPairMua (dataset : String) (tbs : List Nat) (avg : Bool)
    (tr te : NpArr) : Except PyErr (NpArr × NpArr) :=
  if dataset = "PlosCB19_V1" then .ok (tr, te)
  else
    match tr, te with
    | .dim3 a, .dim3 b =>
        .ok (.dim2 (reduceBins avg tbs a), .dim2 (reduceBins avg tbs b))
    | _, _ => .error .npError

/-- Lines 377-404: find the MUA file of this session (the Python loop with
`break` takes the first match; with an empty `mua_data_files` list the later
`mua_data` reference is an unbound name, a `NameError`; a non-matching,
non-empty list prints a skip message and keeps the responses unchanged),
check the image ids match, promote to 3-d and concatenate the selected MUA
units along axis 0. -/
def muaMerge (A : MuaArgs) (off : Int) (dkey : String) (s : Session) :
    Except PyErr (NpArr × NpArr) :=
  match A.mua_files.find? (fun m => toString m.session_id == dkey) with
  | some m =>
    let sel := match A.mua_selector with
      | some f => f dkey
      | none => List.replicate m.unit_count true
    let muaTr := m.training_responses.maskOuter sel
    let muaTe := m.testing_responses.maskOuter sel
    if s.training_image_ids.map (fun x => x - off)
        ≠ m.training_image_ids.map (fun x => x - off) then
      .error .valueError
    else if s.testing_image_ids.map (fun x => x - off)
        ≠ m.testing_image_ids.map (fun x => x - off) then
      .error .valueError
    else
      match muaEnsure3 s.training_responses s.testing_responses with
      | .error e => .error e
      | .ok (t3, s3) =>
        match npConcat0 t3 muaTr with
        | .error e => .error e
        | .ok ctr =>
          match npConcat0 s3 muaTe with
          | .error e => .error e
          | .ok cte => .ok (ctr, cte)
  | none =>
    if A.mua_files.isEmpty then .error .nameError
    else .ok (s.training_responses, s.testing_responses)

/-- Lines 350-451 for one session of `monkey_mua_sua_loader`: eye-movement
extraction (lines 362-374; `raise(FileNotFoundError, msg)` raises a tuple,
which Python 3 rejects with a `TypeError`), MUA merging, response
processing, the membership split (lines 415-425) and the three
`get_cached_loader` calls (lines 427-447), all sharing the one cache. -/
def muaStep (ext : Ext) (A : MuaArgs) (tbs : List Nat)
    (allTrain allVal : List Int) (cacheId : Nat) :
    Unit → Nat → Session →
    Except PyErr (Loader × Loader × Loader × Unit) :=
  fun _ _ s =>
    let off := imgIdOffset A.dataset
    let dkey := toString s.session_id
    let ids0 := s.training_image_ids.map (fun x => x - off)
    let testIds := s.testing_image_ids.map (fun x => x - off)
    match (if truthyOB A.add_eye_movement then
             match s.eye with
             | none => Except.error PyErr.typeError
             | some e => Except.ok (some
                 (ext.zscore (e.h_train.zip e.v_train),
                  ext.zscore (e.h_test.zip e.v_test)))
           else Except.ok none :
           Except PyErr (Option (List (ℚ × ℚ) × List (ℚ × ℚ)))) with
    | .error e => .error e
    | .ok eyeData =>
      match muaMerge A off dkey s with
      | .error e => .error e
      | .ok (rtr0, rte0) =>
        match processPairMua A.dataset tbs A.avg rtr0 rte0 with
        | .error e => .error e
        | .ok (rtr, rte) =>
          let trainMask := npIsin ids0 allTrain
          let valMask := npIsin ids0 allVal
          let tr : Loader :=
            { ids := maskSel trainMask ids0, rows := rtr.maskOuter trainMask,
              eye := eyeData.map (fun p => maskSel trainMask p.1),
              batch := some A.batch_size, shuffle := none,
              cacheId := cacheId }
          let va : Loader :=
            { ids := maskSel valMask ids0, rows := rtr.maskOuter valMask,
              eye := eyeData.map (fun p => maskSel valMask p.1),
              batch := some A.batch_size, shuffle := none,
              cacheId := cacheId }
          let te : Loader :=
            { ids := testIds, rows := rte,
              eye := eyeData.map (fun p => p.2),
              batch := none, shuffle := none, cacheId := cacheId,
              repeatCond := some testIds }
          Except.ok (tr, va, te, ())

/-- The tail of `monkey_mua_sua_loader` once its single `ImageCache` exists
(lines 345-475), mirroring `runMSL`. -/
def runMua (ext : Ext) (A : MuaArgs) (tbs : List Nat) (cache : CacheSpec) :
    Except PyErr MSLOut :=
  match loopSessions (muaStep ext A tbs
      (ext.validationSplit ((A.n_images : ℚ) * trainTestSplit A.dataset)).1
      (ext.validationSplit ((A.n_images : ℚ) * trainTestSplit A.dataset)).2
      cache.id) A.files 0 () emptyTop with
  | .error e => .error e
  | .ok (top, _) =>
    if A.store_data_info && !A.statsExists && (getInner top "train").isEmpty then
      Except.error PyErr.indexError
    else if A.return_data_info then Except.ok MSLOut.dataInfo
    else Except.ok (MSLOut.loaders top [cache])

/-- `monkey_mua_sua_loader` (monkey_loaders.py lines 233-475): argument
normalisation (lines 295-299), the statistics-file branch (lines 310-329)
constructing exactly one `ImageCache` on each path reaching the loop, and
the shared tail `runMua`. -/
def monkeyMuaSuaLoader (ext : Ext) (A : MuaArgs) : Except PyErr MSLOut :=
  let tbs := expandTBS A.time_bins_sum
  let crop1 := normalizeCrop A.crop
  if A.statsExists then
    if A.return_data_info then Except.ok MSLOut.dataInfo
    else runMua ext A tbs { id := 0, crop := crop1, normalize := true }
  else runMua ext A tbs { id := 0, crop := crop1, normalize := false }

/-! ### `monkey_static_loader_closed_loop`

Modeled at the level of its observable effects (cache allocations, loader
constructions, statistics-file writes): the claims about it concern its
error behaviour and the crop of its main `ImageCache`. -/

/-- One observable effect of `monkey_static_loader_closed_loop`. -/
inductive CLEffect where
  | allocCache (crop : CropQ)
  | makeLoader
  | writeStats
  deriving DecidableEq, Repr

/-- A session of the closed-loop loader, reduced to its data key (the
response contents of the seven per-session loaders are not claim-relevant). -/
structure CLSession where
  key : String
  deriving DecidableEq, Repr

/-- The value returned by the closed-loop loader on success. -/
inductive CLRet where
  | dataInfo
  /-- the dataloader dict; `mainCrop` records the crop of the main
  `ImageCache` of lines 588-598. -/
  | res (mainCrop : CropQ)
  deriving DecidableEq, Repr

/-- Result of `monkey_static_loader_closed_loop`: the trace of observable
effects produced before returning or raising, and the outcome. -/
structure CLOut where
  trace : List CLEffect
  outcome : Except PyErr CLRet
  deriving Repr

/-- Arguments of `monkey_static_loader_closed_loop` the model
distinguishes. -/
structure CLArgs where
  sessions : List CLSession
  crop : CropArg
  stimulus_location : Sum (Option StimLoc) (List (Option StimLoc))
  statsExists : Bool
  return_data_info : Bool
  store_data_info : Bool
  include_mei_training : Bool
  include_control_training : Bool

/-- The per-session effects of the closed-loop loop (lines 627-798).  After
line 567-568 `stimulus_location` is always a list (a scalar — `None`
included — is replicated per file), so the `stimulus_location is not None`
branch of line 711 is always taken: each session allocates a
`TrainImageCache` with the crop derived by `get_crop_from_stimulus_location`
and a `TestImageCache` with `crop - np.clip(training_crop, -999, 0)`
(line 713; `img_mean` is non-`None` at this point on every path through
lines 579-603), and builds seven loaders (train, validation, test and the
four mei/control test loaders), plus `validation_extended` when an
include flag is set. -/
def clLoop (ext : Ext) (crop1 : CropQ) (extended : Bool)
    (slocs : List (Option StimLoc)) :
    List CLSession → Nat → List CLEffect × Option PyErr
  | [], _ => ([], none)
  | _ :: rest, i =>
    match slocs[i]? with
    | none => ([], some .indexError)
    | some so =>
      let tcrop := ext.cropFromStimLoc so crop1
      let testcrop := cropSub crop1 (cropClipNeg tcrop)
      let eff := [CLEffect.allocCache tcrop, CLEffect.allocCache testcrop]
        ++ List.replicate (if extended then 8 else 7) CLEffect.makeLoader
      let next := clLoop ext crop1 extended slocs rest (i + 1)
      (eff ++ next.1, next.2)

/-- `monkey_static_loader_closed_loop` (monkey_loaders.py lines 478-822):
the incompatible-flags check (lines 542-544) raises `ValueError` before any
cache, statistics file or dataloader exists; then argument normalisation,
the early `return_data_info` return (lines 579-583), the main `ImageCache`
allocation with the normalized crop (lines 588-598, identical crop on all
three branches), the session loop, and the `store_data_info` tail
(lines 800-820, `IndexError` on an empty train dict). -/
def closedLoopLoader (ext : Ext) (A : CLArgs) : CLOut :=
  if A.include_mei_training && A.include_control_training then
    { trace := [], outcome := .error .valueError }
  else
    let crop1 := normalizeCrop A.crop
    let slocs := match A.stimulus_location with
      | .inl o => A.sessions.map (fun _ => o)
      | .inr l => l
    if A.statsExists && A.return_data_info then
      { trace := [], outcome := .ok .dataInfo }
    else
      let extended := A.include_mei_training || A.include_control_training
      let lp := clLoop ext crop1 extended slocs A.sessions 0
      let baseTrace := CLEffect.allocCache crop1 :: lp.1
      match lp.2 with
      | some e => { trace := baseTrace, outcome := .error e }
      | none =>
        if A.store_data_info && !A.statsExists then
          if A.sessions.isEmpty then
            { trace := baseTrace, outcome := .error .indexError }
          else
            { trace := baseTrace ++ [.writeStats],
              outcome := .ok (.res crop1) }
        else if A.return_data_info then
          { trace := baseTrace, outcome := .ok .dataInfo }
        else
          { trace := baseTrace, outcome := .ok (.res crop1) }

/-! ## Readout models (`nnvision/models/readouts.py`)

`get_module_output(core, in_shape_dict[k])` only ever appears applied to the
one shared `core`, so the embedding abstracts `core` and `get_module_output`
together into one function `gmo : Shape → Shape`; the external readout
classes (`PointPooled2d`, `Gaussian2d`, `FullGaussian2d`, ...) are
abstracted to the construction arguments the factories pass them. -/

/-- A tensor shape, e.g. `(channels, width, height)`. -/
abbrev Shape := List Nat

/-- A readout module abstracted to its construction arguments: the input
shape `get_module_output(core, in_shape_dict[k])[1:]` and its output
dimension `n_neurons_dict[k]`. -/
structure Readout where
  in_shape : Shape
  outdims : Nat
  deriving DecidableEq, Repr

/-- `MultiReadout.forward` (readouts.py lines 37-40) and the identical
`forward` methods of `MultipleGaussian2d` (82-85), `MultipleSelfAttention2d`
(126-129) and `MultipleMultiHeadAttention2d` (174-177): dispatch to
`self[data_key]`, defaulting `data_key` to the single key when the module
dict has exactly one entry; `self[None]` raises `KeyError`.  For these
containers the `_modules` registry holds exactly the per-session readouts,
here an association list of functions. -/
def multiReadoutForward {α β : Type} (d : PyDict (α → β)) (x : α)
    (dataKey : Option String) : Except PyErr β :=
  let dk2 : Option String := match dataKey with
    | none => if d.length == 1 then d.head?.map Prod.fst else none
    | some k => some k
  match dk2 with
  | none => .error .keyError
  | some k =>
    match pyGet d k with
    | some f => .ok (f x)
    | none => .error .keyError

/-- The construction loop shared by `MultiplePointPooled2d.__init__`
(lines 51-63) and `MultipleGaussian2d.__init__` (lines 67-80): one readout
per key of `n_neurons_dict`, with input shape
`get_module_output(core, in_shape_dict[k])[1:]` and output dimension
`n_neurons_dict[k]`; `in_shape_dict[k]` raises `KeyError` when missing. -/
def moduleDictLoop (gmo : Shape → Shape) (in_shape_dict : PyDict Shape) :
    List (String × Nat) → PyDict Readout → Except PyErr (PyDict Readout)
  | [], acc => .ok acc
  | kv :: rest, acc =>
    match pyGet in_shape_dict kv.1 with
    | none => .error .keyError
    | some s =>
      moduleDictLoop gmo in_shape_dict rest
        (pyInsert acc kv.1 ⟨(gmo s).tail, kv.2⟩)

/-- The `for k in n_neurons_dict` registration loop, starting from an empty
module registry. -/
def moduleDictInit (gmo : Shape → Shape) (in_shape_dict : PyDict Shape)
    (nnd : PyDict Nat) : Except PyErr (PyDict Readout) :=
  moduleDictLoop gmo in_shape_dict nnd []

/-- `MultiplePointPooled2d.__init__` (lines 51-63; the `PointPooled2d`
pooling parameters do not affect the registered keys or dimensions). -/
def multiplePointPooled2dInit (gmo : Shape → Shape)
    (in_shape_dict : PyDict Shape) (nnd : PyDict Nat) :
    Except PyErr (PyDict Readout) :=
  moduleDictInit gmo in_shape_dict nnd

/-- `MultipleGaussian2d.__init__` (lines 67-80; the `Gaussian2d`
initialisation ranges do not affect the registered keys or dimensions). -/
def multipleGaussian2dInit (gmo : Shape → Shape)
    (in_shape_dict : PyDict Shape) (nnd : PyDict Nat) :
    Except PyErr (PyDict Readout) :=
  moduleDictInit gmo in_shape_dict nnd

/-- Python `k0 = k0 or k` (line 340): `None` and `''` are falsy. -/
def pyOr (k0 : Option String) (k : String) : String :=
  match k0 with
  | none => k
  | some s => if s = "" then k else s

/-- A `FullGaussian2d` abstracted to the factory's construction arguments:
input shape, output dimension, and the sharing configuration —
`shared_features`/`shared_grid` record the `match_ids` passed and, for
every key after the first, the first key `k0` whose module the features or
grid alias (`self[k0].shared_features` / `.shared_grid`). -/
structure FGReadout where
  in_shape : Shape
  outdims : Nat
  shared_features : Option (List Nat × Option String)
  shared_grid : Option (List Nat × Option String)
  source_grid : Option Unit
  deriving DecidableEq, Repr

/-- Lines 344-355 of `MultipleFullGaussian2d.__init__`: `source_grid` when
a grid-mean predictor is configured (`KeyError` unless its type is
`'cortex'`), otherwise `shared_grid` from `shared_match_ids[k]` when
`share_grid`. -/
def fgGridPart (source_grids : PyDict Unit) (smi : PyDict (List Nat))
    (gmp : Option Unit) (gmpType : Option String) (shareG : Bool)
    (k : String) (i : Nat) (k0n : String) :
    Except PyErr (Option Unit × Option (List Nat × Option String)) :=
  match gmp with
  | some _ =>
    if gmpType = some "cortex" then
      match pyGet source_grids k with
      | none => .error .keyError
      | some _ => .ok (some (), none)
    else .error .keyError
  | none =>
    if shareG then
      match pyGet smi k with
      | none => .error .keyError
      | some mi => .ok (none, some (mi, if i = 0 then none else some k0n))
    else .ok (none, none)

/-- Lines 357-363: `shared_features` from `shared_match_ids[k]` when
`share_features`. -/
def fgFeaturePart (smi : PyDict (List Nat)) (shareF : Bool)
    (k : String) (i : Nat) (k0n : String) :
    Except PyErr (Option (List Nat × Option String)) :=
  if shareF then
    match pyGet smi k with
    | none => .error .keyError
    | some mi => .ok (some (mi, if i = 0 then none else some k0n))
  else .ok none

/-- The loop of `MultipleFullGaussian2d.__init__` (lines 338-377):
per key of `n_neurons_dict`, `k0 = k0 or k`, the input shape, the
grid/feature sharing parts, and the `FullGaussian2d` registration. -/
def fgLoop (gmo : Shape → Shape) (in_shape_dict : PyDict Shape)
    (source_grids : PyDict Unit) (smi : PyDict (List Nat))
    (gmp : Option Unit) (gmpType : Option String)
    (shareF shareG : Bool) :
    List (String × Nat) → Option String → Nat → PyDict FGReadout →
    Except PyErr (PyDict FGReadout)
  | [], _, _, acc => .ok acc
  | (k, n) :: rest, k0, i, acc =>
    match pyGet in_shape_dict k with
    | none => .error .keyError
    | some s =>
      match fgGridPart source_grids smi gmp gmpType shareG k i (pyOr k0 k) with
      | .error e => .error e
      | .ok (srcG, shG) =>
        match fgFeaturePart smi shareF k i (pyOr k0 k) with
        | .error e => .error e
        | .ok shF =>
          fgLoop gmo in_shape_dict source_grids smi gmp gmpType shareF shareG
            rest (some (pyOr k0 k)) (i + 1)
            (pyInsert acc k ⟨(gmo s).tail, n, shF, shG, srcG⟩)

/-- `MultipleFullGaussian2d.__init__` (lines 332-379). -/
def multipleFullGaussian2dInit (gmo : Shape → Shape)
    (in_shape_dict : PyDict Shape) (source_grids : PyDict Unit)
    (smi : PyDict (List Nat)) (gmp : Option Unit) (gmpType : Option String)
    (shareF shareG : Bool) (nnd : PyDict Nat) :
    Except PyErr (PyDict FGReadout) :=
  fgLoop gmo in_shape_dict source_grids smi gmp gmpType shareF shareG
    nnd none 0 []

/-! ### `MultipleSharedMultiHeadAttention2d` -/

/-- A `(rows, cols)` tensor as an index function. -/
abbrev T2 := Nat → Nat → ℚ

/-- An `(i, c, s)` tensor as an index function. -/
abbrev T3 := Nat → Nat → Nat → ℚ

/-- An `(i, h, d, s)` (or `(i, c, w, h)`) tensor as an index function. -/
abbrev T4 := Nat → Nat → Nat → Nat → ℚ

/-- `x.flatten(2, 3)` of an `(i, c, w, h)` tensor (line 271): entry
`(i, c, s)` is `x[i, c, s / h, s % h]`. -/
def flatten23 (h : Nat) (x : T4) : T3 := fun i c s => x i c (s / h) (s % h)

/-- einops `rearrange(t, "i c s -> (i s) c")` (lines 281, 285) for
spatial size `S`: row `r` holds image `r / S`, position `r % S`. -/
def rearrToRows (S : Nat) (t : T3) : T2 := fun r c => t (r / S) c (r % S)

/-- einops `rearrange(t, "(i s) (h d) -> i h d s", h=heads, i=i)`
(lines 282-283, 286) with spatial size `S` and per-head width `D`. -/
def rearrRowsToHeads (S D : Nat) (t : T2) : T4 :=
  fun i h d s => t (i * S + s) (h * D + d)

/-- einops `rearrange(t, "i (h d) s -> i h d s", h=heads)`
(lines 287-290) with per-head width `D`. -/
def rearrChanToHeads (D : Nat) (t : T3) : T4 :=
  fun i h d s => t i (h * D + d) s

/-- `.chunk(2, dim=-1)` of a `(rows, 2*C)` tensor (line 281). -/
def chunk2 (C : Nat) (t : T2) : T2 × T2 :=
  (fun r c => t r c, fun r c => t r (C + c))

/-- A submodule of `MultipleSharedMultiHeadAttention2d` as recorded in the
PyTorch `_modules` registry.  `nn.Module.__setattr__` stores every
`nn.Module`-valued attribute in `_modules`, so `position_embedding`
(line 229), `norm` (line 235, when it is a `LayerNorm`; `self.norm = None`
is a plain attribute) and `to_kv`/`to_key` (lines 240, 242) share the
registry with the per-session readouts added by `add_module` (line 248),
and `ModuleDict.__len__`/`.keys()` range over all of them. -/
inductive MModule where
  | posenc (f : T3 → T3)
  | lnorm (f : T3 → T3)
  | linear (f : T2 → T2)
  | readout (f : T4 → T4 → T2)

/-- `True` exactly for the `linear` (`nn.Linear` embedding) entries. -/
def MModule.isLinear : MModule → Bool
  | .linear _ => true
  | _ => false

/-- `True` exactly for the per-session readout entries. -/
def MModule.isReadout : MModule → Bool
  | .readout _ => true
  | _ => false

/-- `MultipleSharedMultiHeadAttention2d` as constructed by `__init__`. -/
structure MSMHA where
  heads : Nat
  key_embedding : Bool
  value_embedding : Bool
  use_pos_enc : Bool
  /-- the embedding width `c_out` of lines 222-225 -/
  cOut : Nat
  modules : PyDict MModule

/-- The registered `position_embedding`, when present. -/
def posOf (m : MSMHA) : Option (T3 → T3) :=
  match pyGet m.modules "position_embedding" with
  | some (.posenc f) => some f
  | _ => none

/-- The registered `norm`, when present (`self.norm is not None`). -/
def normOf (m : MSMHA) : Option (T3 → T3) :=
  match pyGet m.modules "norm" with
  | some (.lnorm f) => some f
  | _ => none

/-- The registered `to_kv`, when present. -/
def kvOf (m : MSMHA) : Option (T2 → T2) :=
  match pyGet m.modules "to_kv" with
  | some (.linear f) => some f
  | _ => none

/-- The registered `to_key`, when present. -/
def keyFnOf (m : MSMHA) : Option (T2 → T2) :=
  match pyGet m.modules "to_key" with
  | some (.linear f) => some f
  | _ => none

/-- Python truthiness of an optional int: `None` and `0` are falsy. -/
def truthyON (o : Option Nat) : Bool :=
  match o with
  | none => false
  | some n => n != 0

/-- The externally constructed submodules of
`MultipleSharedMultiHeadAttention2d.__init__`, abstracted to the functions
they compute: `PositionalEncoding2D`, `nn.LayerNorm`, the `nn.Linear`
embeddings and the per-session `SharedMultiHeadAttention2d`. -/
structure MsmhaDeps where
  posembF : T3 → T3
  lnormF : T3 → T3
  toKvF : T2 → T2
  toKeyF : T2 → T2
  mkReadout : Shape → Nat → (T4 → T4 → T2)

/-- The `for k in n_neurons_dict` loop of
`MultipleSharedMultiHeadAttention2d.__init__` (lines 245-263): one
`SharedMultiHeadAttention2d` per key, appended to the already-registered
embedding submodules. -/
def msmhaAddReadouts (dep : MsmhaDeps) (gmo : Shape → Shape)
    (in_shape_dict : PyDict Shape) :
    List (String × Nat) → PyDict MModule → Except PyErr (PyDict MModule)
  | [], acc => .ok acc
  | kv :: rest, acc =>
    match pyGet in_shape_dict kv.1 with
    | none => .error .keyError
    | some s =>
      msmhaAddReadouts dep gmo in_shape_dict rest
        (pyInsert acc kv.1 (MModule.readout (dep.mkReadout (gmo s).tail kv.2)))

/-- `MultipleSharedMultiHeadAttention2d.__init__` (lines 184-266): the
positional-encoding/stacking consistency check (lines 206-208: `ValueError`
iff exactly one of `bool(n_pos_channels)` and `bool(stack_pos_encoding)`
holds), the shape of the first `in_shape_dict` entry (lines 219-222; an
empty dict raises `IndexError`, a non-3 tail `ValueError` on unpacking
`c, w, h`), the channel bookkeeping of lines 223-227, the conditional
construction of `position_embedding`, `norm` and `to_kv`/`to_key`
(lines 228-242), and one `SharedMultiHeadAttention2d` per key of
`n_neurons_dict` (lines 245-263). -/
def msmhaInit (dep : MsmhaDeps) (gmo : Shape → Shape)
    (in_shape_dict : PyDict Shape) (nnd : PyDict Nat)
    (use_pos_enc : Bool) (heads : Nat)
    (key_embedding value_embedding : Bool) (layer_norm : Bool)
    (stack_pos_encoding : Bool) (n_pos_channels : Option Nat)
    (embed_out_dim : Option Nat) : Except PyErr MSMHA :=
  if xor (truthyON n_pos_channels) stack_pos_encoding then .error .valueError
  else
    match in_shape_dict.head? with
    | none => .error .indexError
    | some p0 =>
      match (gmo p0.2).tail with
      | [c, _, _] =>
        let c1 := if truthyON n_pos_channels && stack_pos_encoding
                  then c + n_pos_channels.getD 0 else c
        let cOut := if truthyON embed_out_dim then embed_out_dim.getD 0 else c1
        let m0 : PyDict MModule :=
          (if use_pos_enc then
            [("position_embedding", MModule.posenc dep.posembF)] else [])
          ++ (if layer_norm then [("norm", MModule.lnorm dep.lnormF)] else [])
          ++ (if key_embedding && value_embedding then
                [("to_kv", MModule.linear dep.toKvF)]
              else if key_embedding then
                [("to_key", MModule.linear dep.toKeyF)]
              else [])
        match msmhaAddReadouts dep gmo in_shape_dict nnd m0 with
        | .error e => .error e
        | .ok mods =>
          .ok { heads := heads, key_embedding := key_embedding,
                value_embedding := value_embedding,
                use_pos_enc := use_pos_enc, cOut := cOut, modules := mods }
      | _ => .error .valueError

/-- Lines 270-278 of `MultipleSharedMultiHeadAttention2d.forward`: flatten
the `(i, c, w, h)` input to `(i, c, w*h)` and compute `x_embed` by applying
the positional embedding when `use_pos_enc` and the layer norm when
configured (`self.norm is not None`). -/
def msmhaXEmbed (m : MSMHA) (x : T4) (h : Nat) : Except PyErr T3 :=
  let x3 : T3 := flatten23 h x
  match (if m.use_pos_enc then
           match posOf m with
           | some f => Except.ok (f x3)
           | none => Except.error PyErr.attributeError
         else Except.ok x3 : Except PyErr T3) with
  | .error e => .error e
  | .ok xe1 =>
    match normOf m with
    | some f => .ok (f xe1)
    | none => .ok xe1

/-- Lines 280-290 of `MultipleSharedMultiHeadAttention2d.forward`: the key
and value tensors, each of shape `(i, heads, d, s)`:

* `key_embedding and value_embedding`: key and value are the two chunks of
  `to_kv` applied to the rows of `x_embed`;
* `key_embedding` only: key is `to_key` of the rows of `x_embed`, value is
  the flattened unembedded `x`;
* otherwise: key is `x_embed` and value the flattened unembedded `x`;

with `heads * d` the channel count of the respective tensor (einops rejects
a non-divisible channel count; `c` is the runtime channel count from
`x.size()`). -/
def msmhaKV (m : MSMHA) (x : T4) (c w h : Nat) : Except PyErr (T4 × T4) :=
  let S := w * h
  let x3 : T3 := flatten23 h x
  match msmhaXEmbed m x h with
  | .error e => .error e
  | .ok xe =>
    if m.key_embedding && m.value_embedding then
      match kvOf m with
      | none => Except.error PyErr.attributeError
      | some fkv =>
        if m.cOut % m.heads ≠ 0 then Except.error PyErr.einopsError
        else
          let pair := chunk2 m.cOut (fkv (rearrToRows S xe))
          Except.ok (rearrRowsToHeads S (m.cOut / m.heads) pair.1,
                     rearrRowsToHeads S (m.cOut / m.heads) pair.2)
    else if m.key_embedding then
      match keyFnOf m with
      | none => Except.error PyErr.attributeError
      | some fk =>
        if m.cOut % m.heads ≠ 0 ∨ c % m.heads ≠ 0 then
          Except.error PyErr.einopsError
        else
          Except.ok
            (rearrRowsToHeads S (m.cOut / m.heads) (fk (rearrToRows S xe)),
             rearrChanToHeads (c / m.heads) x3)
    else
      if c % m.heads ≠ 0 then Except.error PyErr.einopsError
      else
        Except.ok (rearrChanToHeads (c / m.heads) xe,
                   rearrChanToHeads (c / m.heads) x3)

/-- `MultipleSharedMultiHeadAttention2d.forward` (lines 268-294): flatten
the `(i, c, w, h)` input to `(i, c, w*h)` (line 271), apply the positional
embedding when `use_pos_enc` (272-275) and the layer norm when configured
(277-278) to obtain `x_embed`, then branch on the embedding flags
(280-290):

* `key_embedding and value_embedding`: key and value are the two chunks of
  `to_kv` applied to the rows of `x_embed`;
* `key_embedding` only: key is `to_key` of the rows of `x_embed`, value is
  the flattened unembedded `x`;
* otherwise: key is `x_embed` and value the flattened unembedded `x`;

each rearranged to `(i, heads, d, s)` with `heads * d` the channel count of
the respective tensor (einops rejects a non-divisible channel count), and
finally dispatch to `self[data_key](key, value)` (292-294), with the
`data_key is None and len(self) == 1` defaulting running over the full
`_modules` registry. -/
def msmhaForward (m : MSMHA) (x : T4) (c w h : Nat)
    (dataKey : Option String) : Except PyErr T2 :=
  match msmhaKV m x c w h with
  | .error e => .error e
  | .ok kvPair =>
    let dk2 : Option String := match dataKey with
      | none =>
        if m.modules.length == 1 then m.modules.head?.map Prod.fst else none
      | some k => some k
    match dk2 with
    | none => .error .keyError
    | some k =>
      match pyGet m.modules k with
      | some (.readout r) => .ok (r kvPair.1 kvPair.2)
      | some _ => .error .typeError
      | none => .error .keyError

/-! ## Concrete fixtures (used by witness and counterexample theorems) -/

/-- A concrete instantiation of the external functions. -/
def witExt : Ext :=
  { validationSplit := fun _ => ([0], [1]),
    fracSelect := fun ids _ _ => List.range ids.length,
    cropFromStimLoc := fun _ c => c,
    zscore := fun l => l }

/-- One `'PlosCB19_V1'` session with two training and one test stimulus. -/
def witSession : Session :=
  { subject_id := 1, session_id := 7,
    training_responses := .dim2 [[5], [6]],
    testing_responses := .dim2 [[9]],
    training_image_ids := [1, 2],
    testing_image_ids := [3] }

def witMSLArgs : MSLArgs :=
  { dataset := "PlosCB19_V1", files := [witSession], batch_size := 64,
    time_bins_sum := .inr [0], avg := false, crop := .int 10,
    stimulus_location := none, image_frac := .inl 1,
    image_selection_seed := none, randomize_image_selection := true,
    img_mean := none, statsExists := false, return_data_info := false,
    store_data_info := false, n_images := 10, train_shuffle := true,
    validation_shuffle := false }

/-- A MUA file of a different session (`monkey_mua_sua_loader` then skips
the MUA merge). -/
def witMuaData : MuaData :=
  { session_id := 99, unit_count := 1,
    training_responses := .dim3 [[[50]]],
    testing_responses := .dim3 [[[60]]],
    training_image_ids := [1, 2], testing_image_ids := [3] }

def witMuaArgs : MuaArgs :=
  { dataset := "PlosCB19_V1", files := [witSession],
    mua_files := [witMuaData], batch_size := 64,
    time_bins_sum := .inr [0], avg := false,
    crop := .tuples [(3, 4), (5, 6)],
    statsExists := false, return_data_info := false,
    store_data_info := false, n_images := 10, mua_selector := none,
    add_eye_movement := none }

/-- The loaders `monkey_static_loader` builds from `witMSLArgs`. -/
def witTrainLoader : Loader :=
  { ids := [0], rows := .dim2 [[5]], batch := some 64,
    shuffle := some true, cacheId := 0 }

def witValLoader : Loader :=
  { ids := [1], rows := .dim2 [[6]], batch := some 64,
    shuffle := some false, cacheId := 0 }

def witTestLoader : Loader :=
  { ids := [2], rows := .dim2 [[9]], batch := none,
    shuffle := some false, cacheId := 0, repeatCond := some [2] }

def witTop : PyDict (PyDict Loader) :=
  [("train", [("7", witTrainLoader)]),
   ("validation", [("7", witValLoader)]),
   ("test", [("7", witTestLoader)])]

def witCache : CacheSpec :=
  { id := 0, crop := [(10, 10), (10, 10)], normalize := false }

/-- The loaders `monkey_mua_sua_loader` builds from `witMuaArgs`. -/
def witMuaTrainLoader : Loader :=
  { ids := [0], rows := .dim2 [[5]], batch := some 64,
    shuffle := none, cacheId := 0 }

def witMuaValLoader : Loader :=
  { ids := [1], rows := .dim2 [[6]], batch := some 64,
    shuffle := none, cacheId := 0 }

def witMuaTestLoader : Loader :=
  { ids := [2], rows := .dim2 [[9]], batch := none,
    shuffle := none, cacheId := 0, repeatCond := some [2] }

def witMuaTop : PyDict (PyDict Loader) :=
  [("train", [("7", witMuaTrainLoader)]),
   ("validation", [("7", witMuaValLoader)]),
   ("test", [("7", witMuaTestLoader)])]

def witMuaCache : CacheSpec :=
  { id := 0, crop := [(3, 4), (5, 6)], normalize := false }

/-- A rectangular 2×2×2 response array for the reduction claim. -/
def witArr3 : List (List (List ℚ)) := [[[1, 2], [3, 4]], [[5, 6], [7, 8]]]

/-- Closed-loop arguments with both include flags set. -/
def witCLArgs : CLArgs :=
  { sessions := [⟨"7"⟩], crop := .int 4, stimulus_location := .inl none,
    statsExists := false, return_data_info := false,
    store_data_info := false,
    include_mei_training := true, include_control_training := true }

/-- Closed-loop arguments with the include flags off and
`stimulus_location=None`. -/
def witCLArgs2 : CLArgs :=
  { sessions := [⟨"7"⟩], crop := .tuples [(1, 2), (3, 4)],
    stimulus_location := .inl none,
    statsExists := false, return_data_info := false,
    store_data_info := false,
    include_mei_training := false, include_control_training := false }

/-- The identity in place of `get_module_output(core, ·)`. -/
def witGmo : Shape → Shape := fun s => s

/-- Concrete submodule functions for `MultipleSharedMultiHeadAttention2d`:
the positional embedding adds 1 to every entry, the embeddings scale by 2
and 3, and the readout returns `value[i, 0, 0, 0]` for every neuron. -/
def witDeps : MsmhaDeps :=
  { posembF := fun t => fun i c s => t i c s + 1,
    lnormF := fun t => t,
    toKvF := fun t => fun r c => 2 * t r c,
    toKeyF := fun t => fun r c => 3 * t r c,
    mkReadout := fun _ _ => fun _ value => fun a _ => value a 0 0 0 }

def witShapes : PyDict Shape := [("s", [0, 1, 1, 1])]

def witNeurons : PyDict Nat := [("s", 1)]

/-- The all-ones `(i, c, w, h)` input tensor. -/
def cexX : T4 := fun _ _ _ _ => 1

/-- `MultipleSharedMultiHeadAttention2d(use_pos_enc=True)` with one session:
its `_modules` registry holds the positional embedding and the readout. -/
def cexC3M : MSMHA :=
  { heads := 1, key_embedding := false, value_embedding := false,
    use_pos_enc := true, cOut := 1,
    modules := [("position_embedding", .posenc witDeps.posembF),
                ("s", .readout (witDeps.mkReadout [1, 1, 1] 1))] }

/-- The same container with `value_embedding=True` (and no `to_kv`, since
`key_embedding` is unset). -/
def cexC5M : MSMHA :=
  { heads := 1, key_embedding := false, value_embedding := true,
    use_pos_enc := true, cOut := 1,
    modules := [("position_embedding", .posenc witDeps.posembF),
                ("s", .readout (witDeps.mkReadout [1, 1, 1] 1))] }

/-- The `x_embed` of `cexC5M` on the all-ones input: every entry is 2. -/
def cexC5Xe : T3 := witDeps.posembF (flatten23 1 cexX)

/-- The output of `cexC5M.forward` on the all-ones input: the raw value 1,
not the embedded 2. -/
def cexC5Out : T2 := fun _ _ => 1

/-- A readout-only singleton container for the dispatch witness. -/
def witMSMHAsingle : MSMHA :=
  { heads := 1, key_embedding := false, value_embedding := false,
    use_pos_enc := false, cOut := 1,
    modules := [("s", .readout (witDeps.mkReadout [1, 1, 1] 1))] }

/-- A both-embeddings container for the attention-forward witness. -/
def witC5M : MSMHA :=
  { heads := 1, key_embedding := true, value_embedding := true,
    use_pos_enc := false, cOut := 1,
    modules := [("to_kv", .linear witDeps.toKvF),
                ("s", .readout (witDeps.mkReadout [1, 1, 1] 1))] }

/-- A concrete readout-only dispatch dictionary. -/
def witDispatch : PyDict (Nat → Nat) := [("a", fun n => n + 1)]

/-- Two-session shape and neuron-count dictionaries for the factories. -/
def witShapes2 : PyDict Shape := [("a", [0, 2, 3, 4]), ("b", [0, 5, 6, 7])]

def witNeurons2 : PyDict Nat := [("a", 2), ("b", 3)]

/-- The registries the simple factories build from `witShapes2`. -/
def witReadouts : PyDict Readout :=
  [("a", ⟨[2, 3, 4], 2⟩), ("b", ⟨[5, 6, 7], 3⟩)]

/-- The registry `MultipleFullGaussian2d` builds (no sharing configured). -/
def witFGReadouts : PyDict FGReadout :=
  [("a", ⟨[2, 3, 4], 2, none, none, none⟩),
   ("b", ⟨[5, 6, 7], 3, none, none, none⟩)]

end NNVision

/-! # Theorems -/

namespace NNVision

/-! ## Association-list dictionary lemmas -/

theorem pyGet_nil (k : String) : pyGet ([] : PyDict α) k = none := rfl

theorem pyGet_cons (p : String × α) (d : PyDict α) (k : String) :
    pyGet (p :: d) k = if k = p.1 then some p.2 else pyGet d k := by
  cases p with
  | mk a b =>
    simp only [pyGet, List.lookup]
    by_cases h : k = a
    · simp [h]
    · simp [h, beq_false_of_ne h]

theorem pyInsert_fresh (d : PyDict α) (k : String) (v : α)
    (h : ∀ p ∈ d, p.1 ≠ k) : pyInsert d k v = d ++ [(k, v)] := by
  unfold pyInsert
  have : d.any (fun p => p.1 == k) = false := by
    simp only [List.any_eq_false]
    intro p hp
    simpa using h p hp
  simp [this]

theorem pyGet_append_right (d : PyDict α) (k : String) (v : α)
    (h : ∀ p ∈ d, p.1 ≠ k) : pyGet (d ++ [(k, v)]) k = some v := by
  induction d with
  | nil => simp [pyGet_cons]
  | cons p rest ih =>
    have hp : p.1 ≠ k := h p (by simp)
    rw [List.cons_append, pyGet_cons]
    rw [if_neg (fun hk => hp hk.symm)]
    exact ih (fun q hq => h q (by simp [hq]))

theorem pyGet_append (d e : PyDict α) (k : String) :
    pyGet (d ++ e) k =
      match pyGet d k with
      | some v => some v
      | none => pyGet e k := by
  induction d with
  | nil => simp [pyGet]
  | cons p rest ih =>
    rw [List.cons_append, pyGet_cons, pyGet_cons]
    by_cases hk : k = p.1
    · simp [hk]
    · simp [hk, ih]

theorem pyGet_map_overwrite (d : PyDict α) (k : String) (v : α)
    (h : d.any (fun p => p.1 == k) = true) :
    pyGet (d.map (fun p => if p.1 == k then (k, v) else p)) k = some v := by
  induction d with
  | nil => simp at h
  | cons p rest ih =>
    rw [List.map_cons, pyGet_cons]
    by_cases hp : p.1 == k
    · have hpk : p.1 = k := eq_of_beq hp
      simp [hpk, pyGet_cons]
    · rw [if_neg hp]
      have hne : k ≠ p.1 := fun he => hp (by simp [he])
      rw [if_neg hne]
      apply ih
      simpa [List.any_cons, hp] using h

theorem pyGet_pyInsert_self (d : PyDict α) (k : String) (v : α) :
    pyGet (pyInsert d k v) k = some v := by
  unfold pyInsert
  by_cases h : d.any (fun p => p.1 == k)
  · rw [if_pos h]
    exact pyGet_map_overwrite d k v h
  · rw [if_neg h]
    apply pyGet_append_right
    intro p hp hk
    exact h (List.any_eq_true.mpr ⟨p, hp, by simp [hk]⟩)

theorem pyGet_map_overwrite_ne (d : PyDict α) (k k' : String) (v : α)
    (h : k' ≠ k) :
    pyGet (d.map (fun p => if p.1 == k then (k, v) else p)) k'
      = pyGet d k' := by
  induction d with
  | nil => rfl
  | cons p rest ih =>
    rw [List.map_cons, pyGet_cons, pyGet_cons]
    by_cases hp : p.1 == k
    · have hpk : p.1 = k := eq_of_beq hp
      rw [if_pos hp]
      rw [if_neg (show k' ≠ (k, v).1 from h), if_neg (hpk ▸ h), ih]
    · rw [if_neg hp, ih]

theorem pyGet_pyInsert_ne (d : PyDict α) (k k' : String) (v : α)
    (h : k' ≠ k) : pyGet (pyInsert d k v) k' = pyGet d k' := by
  unfold pyInsert
  by_cases hmem : d.any (fun p => p.1 == k)
  · rw [if_pos hmem]
    exact pyGet_map_overwrite_ne d k k' v h
  · rw [if_neg hmem, pyGet_append]
    have h1 : pyGet [(k, v)] k' = none := by
      rw [pyGet_cons]
      simp [h, pyGet_nil]
    rw [h1]
    cases pyGet d k' <;> rfl

theorem mem_pyInsert (d : PyDict α) (k : String) (v : α) (p : String × α)
    (hp : p ∈ pyInsert d k v) : p = (k, v) ∨ p ∈ d := by
  unfold pyInsert at hp
  by_cases h : d.any (fun q => q.1 == k)
  · rw [if_pos h] at hp
    rcases List.mem_map.mp hp with ⟨q, hq, hq2⟩
    by_cases hqk : q.1 == k
    · left; rw [if_pos hqk] at hq2; exact hq2.symm
    · right; rw [if_neg hqk] at hq2; exact hq2 ▸ hq
  · rw [if_neg h] at hp
    rcases List.mem_append.mp hp with h1 | h1
    · right; exact h1
    · left; simpa using h1

theorem keys_pyInsert_fresh (d : PyDict α) (k : String) (v : α)
    (h : ∀ p ∈ d, p.1 ≠ k) :
    (pyInsert d k v).map Prod.fst = d.map Prod.fst ++ [k] := by
  rw [pyInsert_fresh d k v h]; simp

theorem keys_pyInsert_mem (d : PyDict α) (k : String) (v : α)
    (h : d.any (fun p => p.1 == k)) :
    (pyInsert d k v).map Prod.fst = d.map Prod.fst := by
  unfold pyInsert
  rw [if_pos h]
  rw [List.map_map]
  apply List.map_congr_left
  intro p _
  by_cases hp : p.1 == k
  · simp only [Function.comp_apply, if_pos hp]
    exact (eq_of_beq hp).symm
  · have hne : p.1 ≠ k := by simpa using hp
    simp [Function.comp_apply, hne]

theorem pyGet_mem (d : PyDict α) (k : String) (v : α)
    (h : pyGet d k = some v) : (k, v) ∈ d := by
  induction d with
  | nil => simp [pyGet] at h
  | cons p rest ih =>
    rw [pyGet_cons] at h
    by_cases hk : k = p.1
    · rw [if_pos hk] at h
      cases p with
      | mk a b =>
        have hb : b = v := Option.some.inj h
        have ha : a = k := hk.symm
        rw [ha, hb]
        exact List.mem_cons_self _ _
    · rw [if_neg hk] at h
      exact List.mem_cons_of_mem _ (ih h)

/-! ## Mask-selection lemmas -/

theorem maskSel_nil (mask : List Bool) : maskSel mask ([] : List α) = [] := by
  cases mask <;> rfl

theorem maskSel_cons (b : Bool) (mask : List Bool) (x : α) (xs : List α) :
    maskSel (b :: mask) (x :: xs) =
      if b then x :: maskSel mask xs else maskSel mask xs := by
  cases b <;> simp [maskSel]

theorem maskSel_npIsin_self (ids pool : List Int) :
    maskSel (npIsin ids pool) ids = ids.filter (fun x => decide (x ∈ pool)) := by
  induction ids with
  | nil => rfl
  | cons x xs ih =>
    show maskSel (decide (x ∈ pool) :: npIsin xs pool) (x :: xs) = _
    rw [maskSel_cons, List.filter_cons]
    by_cases h : x ∈ pool
    · simp [h, ih]
    · simp [h, ih]

theorem maskSel_npIsin_zip (ids pool : List Int) (rows : List α)
    (h : rows.length = ids.length) :
    maskSel (npIsin ids pool) rows =
      ((ids.zip rows).filter (fun p => decide (p.1 ∈ pool))).map Prod.snd := by
  induction ids generalizing rows with
  | nil =>
    cases rows with
    | nil => rfl
    | cons r rs => simp at h
  | cons x xs ih =>
    cases rows with
    | nil => simp at h
    | cons r rs =>
      simp only [List.length_cons, Nat.succ.injEq] at h
      show maskSel (decide (x ∈ pool) :: npIsin xs pool) (r :: rs) = _
      rw [maskSel_cons, List.zip_cons_cons, List.filter_cons]
      by_cases hx : x ∈ pool
      · simp [hx, ih rs h]
      · simp [hx, ih rs h]

/-! ## Nested-dict and session-loop lemmas -/

theorem keys_pyInsert_of_mem_keys (d : PyDict α) (k : String) (v : α)
    (h : k ∈ d.map Prod.fst) :
    (pyInsert d k v).map Prod.fst = d.map Prod.fst := by
  apply keys_pyInsert_mem
  obtain ⟨p, hp, hp2⟩ := List.mem_map.mp h
  exact List.any_eq_true.mpr ⟨p, hp, by simp [hp2]⟩

theorem getInner_pyInsert_self (top : PyDict (PyDict Loader)) (nm : String)
    (inner : PyDict Loader) : getInner (pyInsert top nm inner) nm = inner := by
  unfold getInner
  rw [pyGet_pyInsert_self]
  rfl

theorem getInner_pyInsert_ne (top : PyDict (PyDict Loader)) (nm nm' : String)
    (inner : PyDict Loader) (h : nm' ≠ nm) :
    getInner (pyInsert top nm inner) nm' = getInner top nm' := by
  unfold getInner
  rw [pyGet_pyInsert_ne _ _ _ _ h]

theorem getInner_insertAt_self (top : PyDict (PyDict Loader)) (nm k : String)
    (l : Loader) :
    getInner (insertAt top nm k l) nm = pyInsert (getInner top nm) k l := by
  unfold insertAt
  rw [getInner_pyInsert_self]

theorem getInner_insertAt_ne (top : PyDict (PyDict Loader)) (nm nm' k : String)
    (l : Loader) (h : nm' ≠ nm) :
    getInner (insertAt top nm k l) nm' = getInner top nm' := by
  unfold insertAt
  exact getInner_pyInsert_ne _ _ _ _ h

theorem keys_insertAt (top : PyDict (PyDict Loader)) (nm k : String)
    (l : Loader) (h : nm ∈ top.map Prod.fst) :
    (insertAt top nm k l).map Prod.fst = top.map Prod.fst := by
  unfold insertAt
  exact keys_pyInsert_of_mem_keys _ _ _ h

theorem insertSession_train (top : PyDict (PyDict Loader)) (k : String)
    (tr va te : Loader) :
    getInner (insertSession top k tr va te) "train"
      = pyInsert (getInner top "train") k tr := by
  unfold insertSession
  rw [getInner_insertAt_ne _ _ _ _ _ (by decide),
      getInner_insertAt_ne _ _ _ _ _ (by decide),
      getInner_insertAt_self]

theorem insertSession_validation (top : PyDict (PyDict Loader)) (k : String)
    (tr va te : Loader) :
    getInner (insertSession top k tr va te) "validation"
      = pyInsert (getInner top "validation") k va := by
  unfold insertSession
  rw [getInner_insertAt_ne _ _ _ _ _ (by decide),
      getInner_insertAt_self,
      getInner_insertAt_ne _ _ _ _ _ (by decide)]

theorem insertSession_test (top : PyDict (PyDict Loader)) (k : String)
    (tr va te : Loader) :
    getInner (insertSession top k tr va te) "test"
      = pyInsert (getInner top "test") k te := by
  unfold insertSession
  rw [getInner_insertAt_self,
      getInner_insertAt_ne _ _ _ _ _ (by decide),
      getInner_insertAt_ne _ _ _ _ _ (by decide)]

theorem insertSession_keys (top : PyDict (PyDict Loader)) (k : String)
    (tr va te : Loader)
    (h : top.map Prod.fst = ["train", "validation", "test"]) :
    (insertSession top k tr va te).map Prod.fst
      = ["train", "validation", "test"] := by
  unfold insertSession
  rw [keys_insertAt, keys_insertAt, keys_insertAt]
  · exact h
  · rw [h]; simp
  · rw [keys_insertAt _ _ _ _ (by rw [h]; simp), h]; simp
  · rw [keys_insertAt _ _ _ _ (by rw [keys_insertAt _ _ _ _ (by rw [h]; simp), h]; simp),
        keys_insertAt _ _ _ _ (by rw [h]; simp), h]
    simp

theorem allLoaders_insertAt (P : Loader → Prop) (top : PyDict (PyDict Loader))
    (nm k : String) (l : Loader) (htop : allLoaders P top) (hl : P l) :
    allLoaders P (insertAt top nm k l) := by
  intro p hp q hq
  rcases mem_pyInsert _ _ _ _ hp with he | hin
  · have hq2 : q ∈ pyInsert (getInner top nm) k l := by
      rw [he] at hq; exact hq
    rcases mem_pyInsert _ _ _ _ hq2 with he2 | hin2
    · rw [he2]; exact hl
    · unfold getInner at hin2
      cases hg : pyGet top nm with
      | none => rw [hg] at hin2; simp at hin2
      | some inner =>
        rw [hg] at hin2
        exact htop (nm, inner) (pyGet_mem _ _ _ hg) q hin2
  · exact htop p hin q hq

theorem allLoaders_insertSession (P : Loader → Prop)
    (top : PyDict (PyDict Loader)) (k : String) (tr va te : Loader)
    (htop : allLoaders P top) (h1 : P tr) (h2 : P va) (h3 : P te) :
    allLoaders P (insertSession top k tr va te) := by
  unfold insertSession
  exact allLoaders_insertAt _ _ _ _ _
    (allLoaders_insertAt _ _ _ _ _
      (allLoaders_insertAt _ _ _ _ _ htop h1) h2) h3

theorem loopSessions_allLoaders {σ : Type}
    (step : σ → Nat → Session → Except PyErr (Loader × Loader × Loader × σ))
    (P : Loader → Prop)
    (hstep : ∀ st i s tr va te st2,
      step st i s = .ok (tr, va, te, st2) → P tr ∧ P va ∧ P te) :
    ∀ (files : List Session) (i : Nat) (st : σ)
      (top out : PyDict (PyDict Loader)) (stOut : σ),
      loopSessions step files i st top = .ok (out, stOut) →
      allLoaders P top → allLoaders P out := by
  intro files
  induction files with
  | nil =>
    intro i st top out stOut hok htop
    unfold loopSessions at hok
    cases hok
    exact htop
  | cons s rest ih =>
    intro i st top out stOut hok htop
    unfold loopSessions at hok
    cases hs : step st i s with
    | error e =>
      rw [hs] at hok
      exact absurd hok (by simp)
    | ok quad =>
      obtain ⟨tr, va, te, st2⟩ := quad
      rw [hs] at hok
      exact ih _ _ _ _ _ hok
        (allLoaders_insertSession P top _ tr va te htop
          (hstep st i s tr va te st2 hs).1
          (hstep st i s tr va te st2 hs).2.1
          (hstep st i s tr va te st2 hs).2.2)

theorem loopSessions_keys {σ : Type}
    (step : σ → Nat → Session → Except PyErr (Loader × Loader × Loader × σ)) :
    ∀ (files : List Session) (i : Nat) (st : σ)
      (top out : PyDict (PyDict Loader)) (stOut : σ),
      loopSessions step files i st top = .ok (out, stOut) →
      top.map Prod.fst = ["train", "validation", "test"] →
      (∀ nm, nm = "train" ∨ nm = "validation" ∨ nm = "test" →
        ((getInner top nm).map Prod.fst
          ++ files.map (fun s => toString s.session_id)).Nodup) →
      out.map Prod.fst = ["train", "validation", "test"] ∧
      ∀ nm, nm = "train" ∨ nm = "validation" ∨ nm = "test" →
        (getInner out nm).map Prod.fst
          = (getInner top nm).map Prod.fst
            ++ files.map (fun s => toString s.session_id) := by
  intro files
  induction files with
  | nil =>
    intro i st top out stOut hok htop hnd
    unfold loopSessions at hok
    cases hok
    refine ⟨htop, ?_⟩
    intro nm _
    simp
  | cons s rest ih =>
    intro i st top out stOut hok htop hnd
    unfold loopSessions at hok
    cases hs : step st i s with
    | error e =>
      rw [hs] at hok
      exact absurd hok (by simp)
    | ok quad =>
      obtain ⟨tr, va, te, st2⟩ := quad
      rw [hs] at hok
      have hfresh : ∀ nm, nm = "train" ∨ nm = "validation" ∨ nm = "test" →
          ∀ p ∈ getInner top nm, p.1 ≠ toString s.session_id := by
        intro nm hnm p hp hpk
        have h1 := hnd nm hnm
        have hdisj := List.disjoint_of_nodup_append h1
        exact hdisj (List.mem_map.mpr ⟨p, hp, hpk⟩) (by simp)
      have hget : ∀ nm, nm = "train" ∨ nm = "validation" ∨ nm = "test" →
          (getInner (insertSession top (toString s.session_id) tr va te) nm).map
              Prod.fst
            = (getInner top nm).map Prod.fst ++ [toString s.session_id] := by
        intro nm hnm
        rcases hnm with h | h | h <;> subst h
        · rw [insertSession_train]
          exact keys_pyInsert_fresh _ _ _ (hfresh "train" (Or.inl rfl))
        · rw [insertSession_validation]
          exact keys_pyInsert_fresh _ _ _
            (hfresh "validation" (Or.inr (Or.inl rfl)))
        · rw [insertSession_test]
          exact keys_pyInsert_fresh _ _ _ (hfresh "test" (Or.inr (Or.inr rfl)))
      have hkeys2 := insertSession_keys top (toString s.session_id) tr va te htop
      have hnd2 : ∀ nm, nm = "train" ∨ nm = "validation" ∨ nm = "test" →
          ((getInner (insertSession top (toString s.session_id) tr va te)
              nm).map Prod.fst
            ++ rest.map (fun s => toString s.session_id)).Nodup := by
        intro nm hnm
        rw [hget nm hnm, List.append_assoc, List.singleton_append]
        exact hnd nm hnm
      obtain ⟨hko, hgo⟩ := ih _ _ _ _ _ hok hkeys2 hnd2
      refine ⟨hko, ?_⟩
      intro nm hnm
      rw [hgo nm hnm, hget nm hnm, List.append_assoc, List.singleton_append]
      rfl

/-! ## Loader-tail elimination lemmas -/

theorem mslStep_ok_elim (ext : Ext) (A : MSLArgs) (tbs : List Nat)
    (fracs : List ℚ) (allT allV : List Int) (cid : Nat)
    (seedIn : Option Int) (i : Nat) (s : Session) (tr va te : Loader)
    (seedOut : Option Int)
    (h : mslStep ext A tbs fracs allT allV cid seedIn i s
      = .ok (tr, va, te, seedOut)) :
    ∃ frac ids rows testIds testRows,
      fracs[i]? = some frac ∧
      mslPrepared ext A.dataset tbs A.avg A.randomize_image_selection frac
        seedIn s = .ok (ids, rows, testIds, testRows, seedOut) ∧
      tr = { ids := maskSel (npIsin ids allT) ids,
             rows := rows.maskOuter (npIsin ids allT),
             batch := some A.batch_size, shuffle := some A.train_shuffle,
             cacheId := cid } ∧
      va = { ids := maskSel (npIsin ids allV) ids,
             rows := rows.maskOuter (npIsin ids allV),
             batch := some A.batch_size, shuffle := some A.validation_shuffle,
             cacheId := cid } ∧
      te = { ids := testIds, rows := testRows, batch := none,
             shuffle := some false, cacheId := cid,
             repeatCond := some testIds } := by
  unfold mslStep at h
  cases hf : fracs[i]? with
  | none => rw [hf] at h; exact absurd h (by simp)
  | some frac =>
    rw [hf] at h
    dsimp only at h
    cases hp : mslPrepared ext A.dataset tbs A.avg A.randomize_image_selection
        frac seedIn s with
    | error e => rw [hp] at h; exact absurd h (by simp)
    | ok tup =>
      obtain ⟨ids, rows, testIds, testRows, sOut⟩ := tup
      rw [hp] at h
      simp only [Except.ok.injEq, Prod.mk.injEq] at h
      obtain ⟨h1, h2, h3, h4⟩ := h
      subst h4
      exact ⟨frac, ids, rows, testIds, testRows, rfl, hp,
        h1.symm, h2.symm, h3.symm⟩

theorem runMSL_ok_elim (ext : Ext) (A : MSLArgs) (tbs : List Nat)
    (fracs : List ℚ) (cache : CacheSpec) (r : MSLOut)
    (hrdi : A.return_data_info = false)
    (h : runMSL ext A tbs fracs cache = .ok r) :
    ∃ top stOut,
      loopSessions (mslStep ext A tbs fracs
          (ext.validationSplit ((A.n_images : ℚ) * trainTestSplit A.dataset)).1
          (ext.validationSplit ((A.n_images : ℚ) * trainTestSplit A.dataset)).2
          cache.id) A.files 0 A.image_selection_seed emptyTop
        = .ok (top, stOut) ∧
      r = .loaders top [cache] := by
  unfold runMSL at h
  cases hl : loopSessions (mslStep ext A tbs fracs
      (ext.validationSplit ((A.n_images : ℚ) * trainTestSplit A.dataset)).1
      (ext.validationSplit ((A.n_images : ℚ) * trainTestSplit A.dataset)).2
      cache.id) A.files 0 A.image_selection_seed emptyTop with
  | error e => rw [hl] at h; exact absurd h (by simp)
  | ok pr =>
    obtain ⟨top, stOut⟩ := pr
    rw [hl] at h
    dsimp only at h
    by_cases hst : (A.store_data_info && !A.statsExists
        && (getInner top "train").isEmpty) = true
    · rw [if_pos hst] at h
      exact absurd h (by simp)
    · rw [if_neg hst, if_neg (by simp [hrdi])] at h
      exact ⟨top, stOut, rfl, (Except.ok.inj h).symm⟩

theorem runMua_ok_elim (ext : Ext) (A : MuaArgs) (tbs : List Nat)
    (cache : CacheSpec) (r : MSLOut)
    (hrdi : A.return_data_info = false)
    (h : runMua ext A tbs cache = .ok r) :
    ∃ top stOut,
      loopSessions (muaStep ext A tbs
          (ext.validationSplit ((A.n_images : ℚ) * trainTestSplit A.dataset)).1
          (ext.validationSplit ((A.n_images : ℚ) * trainTestSplit A.dataset)).2
          cache.id) A.files 0 () emptyTop = .ok (top, stOut) ∧
      r = .loaders top [cache] := by
  unfold runMua at h
  cases hl : loopSessions (muaStep ext A tbs
      (ext.validationSplit ((A.n_images : ℚ) * trainTestSplit A.dataset)).1
      (ext.validationSplit ((A.n_images : ℚ) * trainTestSplit A.dataset)).2
      cache.id) A.files 0 () emptyTop with
  | error e => rw [hl] at h; exact absurd h (by simp)
  | ok pr =>
    obtain ⟨top, stOut⟩ := pr
    rw [hl] at h
    dsimp only at h
    by_cases hst : (A.store_data_info && !A.statsExists
        && (getInner top "train").isEmpty) = true
    · rw [if_pos hst] at h
      exact absurd h (by simp)
    · rw [if_neg hst, if_neg (by simp [hrdi])] at h
      exact ⟨top, stOut, rfl, (Except.ok.inj h).symm⟩

theorem monkeyStaticLoader_ok_elim (ext : Ext) (A : MSLArgs) (r : MSLOut)
    (hrdi : A.return_data_info = false)
    (h : monkeyStaticLoader ext A = .ok r) :
    ∃ cache top stOut,
      cache.id = 0 ∧
      cache.crop = (match A.stimulus_location with
        | some loc => ext.cropFromStimLoc (some loc) (normalizeCrop A.crop)
        | none => normalizeCrop A.crop) ∧
      loopSessions (mslStep ext A (expandTBS A.time_bins_sum)
          (mslFracs A.files A.image_frac)
          (ext.validationSplit ((A.n_images : ℚ) * trainTestSplit A.dataset)).1
          (ext.validationSplit ((A.n_images : ℚ) * trainTestSplit A.dataset)).2
          cache.id) A.files 0 A.image_selection_seed emptyTop
        = .ok (top, stOut) ∧
      r = .loaders top [cache] := by
  unfold monkeyStaticLoader at h
  by_cases hst : A.statsExists = true
  · rw [if_pos hst, if_neg (by simp [hrdi])] at h
    obtain ⟨top, stOut, hl, hr⟩ := runMSL_ok_elim _ _ _ _ _ _ hrdi h
    exact ⟨_, top, stOut, rfl, rfl, hl, hr⟩
  · rw [if_neg hst] at h
    cases him : A.img_mean with
    | some q =>
      rw [him] at h
      obtain ⟨top, stOut, hl, hr⟩ := runMSL_ok_elim _ _ _ _ _ _ hrdi h
      exact ⟨_, top, stOut, rfl, rfl, hl, hr⟩
    | none =>
      rw [him] at h
      obtain ⟨top, stOut, hl, hr⟩ := runMSL_ok_elim _ _ _ _ _ _ hrdi h
      exact ⟨_, top, stOut, rfl, rfl, hl, hr⟩

theorem monkeyMuaSuaLoader_ok_elim (ext : Ext) (A : MuaArgs) (r : MSLOut)
    (hrdi : A.return_data_info = false)
    (h : monkeyMuaSuaLoader ext A = .ok r) :
    ∃ cache top stOut,
      cache.id = 0 ∧
      cache.crop = normalizeCrop A.crop ∧
      loopSessions (muaStep ext A (expandTBS A.time_bins_sum)
          (ext.validationSplit ((A.n_images : ℚ) * trainTestSplit A.dataset)).1
          (ext.validationSplit ((A.n_images : ℚ) * trainTestSplit A.dataset)).2
          cache.id) A.files 0 () emptyTop = .ok (top, stOut) ∧
      r = .loaders top [cache] := by
  unfold monkeyMuaSuaLoader at h
  by_cases hst : A.statsExists = true
  · rw [if_pos hst, if_neg (by simp [hrdi])] at h
    obtain ⟨top, stOut, hl, hr⟩ := runMua_ok_elim _ _ _ _ _ hrdi h
    exact ⟨_, top, stOut, rfl, rfl, hl, hr⟩
  · rw [if_neg hst] at h
    obtain ⟨top, stOut, hl, hr⟩ := runMua_ok_elim _ _ _ _ _ hrdi h
    exact ⟨_, top, stOut, rfl, rfl, hl, hr⟩

/-! ## Array-entry lemmas -/

theorem getD_map_range {α : Type} (f : Nat → α) (n i : Nat) (d : α)
    (h : i < n) : ((List.range n).map f).getD i d = f i := by
  rw [List.getD_eq_getElem?_getD, List.getElem?_map, List.getElem?_range h]
  rfl

theorem reduceBins_entry (avg : Bool) (bins : List Nat)
    (a : List (List (List ℚ))) (i j : Nat)
    (hr : rect3 a = true) (hi : i < (dims3 a).2.2) (hj : j < (dims3 a).1) :
    ((reduceBins avg bins a).getD i []).getD j 0
      = npAgg avg (bins.map (fun b => get3 a j b i)) := by
  unfold reduceBins transpose201
  rw [List.map_map]
  rw [getD_map_range _ _ _ _ hi]
  dsimp only [Function.comp]
  rw [List.map_map]
  rw [getD_map_range _ _ _ _ hj]
  dsimp only [Function.comp]
  congr 1
  apply List.map_congr_left
  intro b _
  by_cases hb : b < (dims3 a).2.1
  · rw [getD_map_range _ _ _ _ hb]
  · push_neg at hb
    have hlen : ((List.range (dims3 a).2.1).map
        (fun k => get3 a j k i)).length = (dims3 a).2.1 := by simp
    rw [List.getD_eq_default _ _ (by rw [hlen]; exact hb)]
    have hj2 : j < a.length := hj
    have hmem : a.getD j [] ∈ a := by
      rw [List.getD_eq_getElem a [] hj2]
      exact List.getElem_mem hj2
    have hall := List.all_eq_true.mp hr _ hmem
    have hlen2 : (a.getD j []).length = (dims3 a).2.1 :=
      eq_of_beq (Bool.and_eq_true _ _ |>.mp hall).1
    unfold get3
    rw [show (a.getD j []).getD b [] = [] from
      List.getD_eq_default _ _ (by rw [hlen2]; exact hb)]
    rfl

/-! ## Readout-factory loop lemmas -/

theorem moduleDictLoop_spec (gmo : Shape → Shape) (isd : PyDict Shape) :
    ∀ (nnd : List (String × Nat)) (acc out : PyDict Readout),
      moduleDictLoop gmo isd nnd acc = .ok out →
      (acc.map Prod.fst ++ nnd.map Prod.fst).Nodup →
      out.map Prod.fst = acc.map Prod.fst ++ nnd.map Prod.fst ∧
      (∀ k v, pyGet acc k = some v → ¬ k ∈ nnd.map Prod.fst →
        pyGet out k = some v) ∧
      ∀ kv ∈ nnd, ∃ s, pyGet isd kv.1 = some s ∧
        pyGet out kv.1 = some ⟨(gmo s).tail, kv.2⟩ := by
  intro nnd
  induction nnd with
  | nil =>
    intro acc out hok hnd
    unfold moduleDictLoop at hok
    cases hok
    exact ⟨by simp, fun k v hv _ => hv, by simp⟩
  | cons kv rest ih =>
    intro acc out hok hnd
    unfold moduleDictLoop at hok
    cases hg : pyGet isd kv.1 with
    | none => rw [hg] at hok; exact absurd hok (by simp)
    | some s =>
      rw [hg] at hok
      dsimp only at hok
      have hfresh : ∀ p ∈ acc, p.1 ≠ kv.1 := by
        intro p hp hpk
        have hdisj := List.disjoint_of_nodup_append hnd
        exact hdisj (List.mem_map.mpr ⟨p, hp, hpk⟩) (by simp)
      have hins : pyInsert acc kv.1 ⟨(gmo s).tail, kv.2⟩
          = acc ++ [(kv.1, ⟨(gmo s).tail, kv.2⟩)] :=
        pyInsert_fresh _ _ _ hfresh
      have hnd2 : ((pyInsert acc kv.1
          (⟨(gmo s).tail, kv.2⟩ : Readout)).map Prod.fst
          ++ rest.map Prod.fst).Nodup := by
        rw [keys_pyInsert_fresh _ _ _ hfresh, List.append_assoc,
            List.singleton_append]
        exact hnd
      obtain ⟨hko, hpres, hmem⟩ := ih _ _ hok hnd2
      have hknotrest : ¬ kv.1 ∈ rest.map Prod.fst := by
        have h2 := (List.nodup_append.mp hnd).2.1
        rw [List.map_cons] at h2
        exact (List.nodup_cons.mp h2).1
      refine ⟨?_, ?_, ?_⟩
      · rw [hko, keys_pyInsert_fresh _ _ _ hfresh, List.append_assoc,
            List.singleton_append]
        rfl
      · intro k v hv hk
        have hk1 : k ≠ kv.1 := fun he => hk (by simp [he])
        have hk2 : ¬ k ∈ rest.map Prod.fst := fun hm => hk (by simp [hm])
        apply hpres _ _ _ hk2
        rw [hins, pyGet_append, hv]
      · intro p hp
        rcases List.mem_cons.mp hp with he | hm
        · subst he
          refine ⟨s, hg, ?_⟩
          apply hpres _ _ _ hknotrest
          rw [hins]
          exact pyGet_append_right _ _ _ hfresh
        · exact hmem p hm

theorem fgLoop_spec (gmo : Shape → Shape) (isd : PyDict Shape)
    (sg : PyDict Unit) (smi : PyDict (List Nat)) (gmp : Option Unit)
    (gmpType : Option String) (shareF shareG : Bool) :
    ∀ (nnd : List (String × Nat)) (k0 : Option String) (i : Nat)
      (acc out : PyDict FGReadout),
      fgLoop gmo isd sg smi gmp gmpType shareF shareG nnd k0 i acc
        = .ok out →
      (acc.map Prod.fst ++ nnd.map Prod.fst).Nodup →
      out.map Prod.fst = acc.map Prod.fst ++ nnd.map Prod.fst ∧
      (∀ k v, pyGet acc k = some v → ¬ k ∈ nnd.map Prod.fst →
        pyGet out k = some v) ∧
      ∀ kv ∈ nnd, ∃ s r, pyGet isd kv.1 = some s ∧
        pyGet out kv.1 = some r ∧
        r.in_shape = (gmo s).tail ∧ r.outdims = kv.2 := by
  intro nnd
  induction nnd with
  | nil =>
    intro k0 i acc out hok hnd
    unfold fgLoop at hok
    cases hok
    exact ⟨by simp, fun k v hv _ => hv, by simp⟩
  | cons kv rest ih =>
    intro k0 i acc out hok hnd
    obtain ⟨k, n⟩ := kv
    unfold fgLoop at hok
    cases hg : pyGet isd k with
    | none => rw [hg] at hok; exact absurd hok (by simp)
    | some s =>
      rw [hg] at hok
      dsimp only at hok
      cases hg1 : fgGridPart sg smi gmp gmpType shareG k i (pyOr k0 k) with
      | error e => rw [hg1] at hok; exact absurd hok (by simp)
      | ok pr1 =>
        obtain ⟨srcG, shG⟩ := pr1
        rw [hg1] at hok
        dsimp only at hok
        cases hg2 : fgFeaturePart smi shareF k i (pyOr k0 k) with
        | error e => rw [hg2] at hok; exact absurd hok (by simp)
        | ok shF =>
          rw [hg2] at hok
          dsimp only at hok
          have hfresh : ∀ p ∈ acc, p.1 ≠ k := by
            intro p hp hpk
            have hdisj := List.disjoint_of_nodup_append hnd
            exact hdisj (List.mem_map.mpr ⟨p, hp, hpk⟩) (by simp [hpk])
          have hins : pyInsert acc k ⟨(gmo s).tail, n, shF, shG, srcG⟩
              = acc ++ [(k, ⟨(gmo s).tail, n, shF, shG, srcG⟩)] :=
            pyInsert_fresh _ _ _ hfresh
          have hnd2 : ((pyInsert acc k
              (⟨(gmo s).tail, n, shF, shG, srcG⟩ : FGReadout)).map Prod.fst
              ++ rest.map Prod.fst).Nodup := by
            rw [keys_pyInsert_fresh _ _ _ hfresh, List.append_assoc,
                List.singleton_append]
            exact hnd
          obtain ⟨hko, hpres, hmem⟩ := ih _ _ _ _ hok hnd2
          have hknotrest : ¬ k ∈ rest.map Prod.fst := by
            have h2 := (List.nodup_append.mp hnd).2.1
            rw [List.map_cons] at h2
            exact (List.nodup_cons.mp h2).1
          refine ⟨?_, ?_, ?_⟩
          · rw [hko, keys_pyInsert_fresh _ _ _ hfresh, List.append_assoc,
                List.singleton_append]
            rfl
          · intro k2 v hv hk
            have hk2 : ¬ k2 ∈ rest.map Prod.fst := fun hm => hk (by simp [hm])
            apply hpres _ _ _ hk2
            rw [hins, pyGet_append, hv]
          · intro p hp
            rcases List.mem_cons.mp hp with he | hm
            · subst he
              refine ⟨s, ⟨(gmo s).tail, n, shF, shG, srcG⟩, hg, ?_, rfl, rfl⟩
              apply hpres _ _ _ hknotrest
              rw [hins]
              exact pyGet_append_right _ _ _ hfresh
            · exact hmem p hm

theorem msmhaAddReadouts_ok (dep : MsmhaDeps) (gmo : Shape → Shape)
    (isd : PyDict Shape) :
    ∀ (nnd : List (String × Nat)) (acc : PyDict MModule),
      (∀ kv ∈ nnd, (pyGet isd kv.1).isSome) →
      ∃ d, msmhaAddReadouts dep gmo isd nnd acc = .ok d := by
  intro nnd
  induction nnd with
  | nil =>
    intro acc _
    exact ⟨acc, rfl⟩
  | cons kv rest ih =>
    intro acc hall
    have h1 := hall kv (by simp)
    cases hg : pyGet isd kv.1 with
    | none => rw [hg] at h1; simp at h1
    | some s =>
      obtain ⟨d, hd⟩ := ih
        (pyInsert acc kv.1 (MModule.readout (dep.mkReadout (gmo s).tail kv.2)))
        (fun q hq => hall q (by simp [hq]))
      refine ⟨d, ?_⟩
      unfold msmhaAddReadouts
      rw [hg]
      exact hd

theorem runMSL_rdi_true (ext : Ext) (A : MSLArgs) (tbs : List Nat)
    (fracs : List ℚ) (cache : CacheSpec) (r : MSLOut)
    (hrdi : A.return_data_info = true)
    (h : runMSL ext A tbs fracs cache = .ok r) : r = .dataInfo := by
  unfold runMSL at h
  cases hl : loopSessions (mslStep ext A tbs fracs
      (ext.validationSplit ((A.n_images : ℚ) * trainTestSplit A.dataset)).1
      (ext.validationSplit ((A.n_images : ℚ) * trainTestSplit A.dataset)).2
      cache.id) A.files 0 A.image_selection_seed emptyTop with
  | error e => rw [hl] at h; exact absurd h (by simp)
  | ok pr =>
    obtain ⟨top, stOut⟩ := pr
    rw [hl] at h
    dsimp only at h
    by_cases hst : (A.store_data_info && !A.statsExists
        && (getInner top "train").isEmpty) = true
    · rw [if_pos hst] at h
      exact absurd h (by simp)
    · rw [if_neg hst, if_pos hrdi] at h
      exact (Except.ok.inj h).symm

theorem runMua_rdi_true (ext : Ext) (A : MuaArgs) (tbs : List Nat)
    (cache : CacheSpec) (r : MSLOut)
    (hrdi : A.return_data_info = true)
    (h : runMua ext A tbs cache = .ok r) : r = .dataInfo := by
  unfold runMua at h
  cases hl : loopSessions (muaStep ext A tbs
      (ext.validationSplit ((A.n_images : ℚ) * trainTestSplit A.dataset)).1
      (ext.validationSplit ((A.n_images : ℚ) * trainTestSplit A.dataset)).2
      cache.id) A.files 0 () emptyTop with
  | error e => rw [hl] at h; exact absurd h (by simp)
  | ok pr =>
    obtain ⟨top, stOut⟩ := pr
    rw [hl] at h
    dsimp only at h
    by_cases hst : (A.store_data_info && !A.statsExists
        && (getInner top "train").isEmpty) = true
    · rw [if_pos hst] at h
      exact absurd h (by simp)
    · rw [if_neg hst, if_pos hrdi] at h
      exact (Except.ok.inj h).symm

theorem monkeyStaticLoader_rdi_true (ext : Ext) (A : MSLArgs) (r : MSLOut)
    (hrdi : A.return_data_info = true)
    (h : monkeyStaticLoader ext A = .ok r) : r = .dataInfo := by
  unfold monkeyStaticLoader at h
  by_cases hst : A.statsExists = true
  · rw [if_pos hst, if_pos hrdi] at h
    exact (Except.ok.inj h).symm
  · rw [if_neg hst] at h
    cases him : A.img_mean with
    | some q =>
      rw [him] at h
      exact runMSL_rdi_true _ _ _ _ _ _ hrdi h
    | none =>
      rw [him] at h
      exact runMSL_rdi_true _ _ _ _ _ _ hrdi h

theorem monkeyMuaSuaLoader_rdi_true (ext : Ext) (A : MuaArgs) (r : MSLOut)
    (hrdi : A.return_data_info = true)
    (h : monkeyMuaSuaLoader ext A = .ok r) : r = .dataInfo := by
  unfold monkeyMuaSuaLoader at h
  by_cases hst : A.statsExists = true
  · rw [if_pos hst, if_pos hrdi] at h
    exact (Except.ok.inj h).symm
  · rw [if_neg hst] at h
    exact runMua_rdi_true _ _ _ _ _ hrdi h

/-! ## The claims -/

/-- C9: `monkey_static_loader_closed_loop` raises `ValueError` whenever both
`include_mei_training` and `include_control_training` are `True`, and it
does so before any image cache, statistics file or dataloader is created
(lines 542-544 precede everything else in the function body): the effect
trace of the call is empty. -/
theorem claim9_closed_loop_flag_check (ext : Ext) (A : CLArgs)
    (h1 : A.include_mei_training = true)
    (h2 : A.include_control_training = true) :
    closedLoopLoader ext A
      = { trace := [], outcome := .error .valueError } := by
  unfold closedLoopLoader
  rw [h1, h2]
  rfl

/-- C9 witness: the check fires on a concrete argument record. -/
theorem claim9_witness :
    witCLArgs.include_mei_training = true ∧
    witCLArgs.include_control_training = true ∧
    closedLoopLoader witExt witCLArgs
      = { trace := [], outcome := .error .valueError } :=
  ⟨rfl, rfl, claim9_closed_loop_flag_check witExt witCLArgs rfl rfl⟩

/-- C10: `MultipleSharedMultiHeadAttention2d.__init__` raises `ValueError`
iff exactly one of `n_pos_channels` and `stack_pos_encoding` is truthy
(lines 206-208); when both are truthy or both falsy, construction proceeds
(given well-formed shape dictionaries: a first entry exists, its
`get_module_output` tail unpacks as `c, w, h`, and every `n_neurons_dict`
key has an input shape).  The first conjunct needs no well-formedness: the
check precedes everything else. -/
theorem claim10_msmha_check :
    (∀ (dep : MsmhaDeps) (gmo : Shape → Shape) (isd : PyDict Shape)
       (nnd : PyDict Nat) (upe : Bool) (heads : Nat) (ke ve ln spe : Bool)
       (npc eod : Option Nat),
      xor (truthyON npc) spe = true →
      msmhaInit dep gmo isd nnd upe heads ke ve ln spe npc eod
        = .error .valueError) ∧
    (∀ (dep : MsmhaDeps) (gmo : Shape → Shape) (isd : PyDict Shape)
       (nnd : PyDict Nat) (upe : Bool) (heads : Nat) (ke ve ln spe : Bool)
       (npc eod : Option Nat) (p0 : String × Shape) (c w h : Nat),
      xor (truthyON npc) spe = false →
      isd.head? = some p0 →
      (gmo p0.2).tail = [c, w, h] →
      (∀ kv ∈ nnd, (pyGet isd kv.1).isSome) →
      ∃ M, msmhaInit dep gmo isd nnd upe heads ke ve ln spe npc eod
        = .ok M) := by
  constructor
  · intro dep gmo isd nnd upe heads ke ve ln spe npc eod hx
    unfold msmhaInit
    rw [hx]
    rfl
  · intro dep gmo isd nnd upe heads ke ve ln spe npc eod p0 c w h hx hh ht hall
    unfold msmhaInit
    rw [hx]
    dsimp only
    rw [hh]
    dsimp only
    rw [ht]
    dsimp only
    obtain ⟨d, hd⟩ := msmhaAddReadouts_ok dep gmo isd nnd _ hall
    rw [hd]
    exact ⟨_, rfl⟩

/-- C10 witness: a truthy/falsy mismatch raises, and a consistent
configuration constructs, on concrete inputs. -/
theorem claim10_witness :
    xor (truthyON (some 3)) false = true ∧
    msmhaInit witDeps witGmo witShapes witNeurons true 1 false false false
      false (some 3) none = .error .valueError ∧
    xor (truthyON none) false = false ∧
    witShapes.head? = some ("s", [0, 1, 1, 1]) ∧
    (witGmo ("s", ([0, 1, 1, 1] : Shape)).2).tail = [1, 1, 1] ∧
    (∀ kv ∈ witNeurons, (pyGet witShapes kv.1).isSome) ∧
    (∃ M, msmhaInit witDeps witGmo witShapes witNeurons true 1 false false
      false false none none = .ok M) :=
  ⟨by decide,
   claim10_msmha_check.1 witDeps witGmo witShapes witNeurons true 1 false
     false false false (some 3) none (by decide),
   by decide, rfl, rfl, by decide,
   claim10_msmha_check.2 witDeps witGmo witShapes witNeurons true 1 false
     false false false none none ("s", [0, 1, 1, 1]) 1 1 1 (by decide) rfl
     rfl (by decide)⟩

/-- C8: for a dataset other than `'PlosCB19_V1'`, a non-iterable
`time_bins_sum = t` is first expanded to `tuple(range(t))` (line 88), the
train and test response arrays are transposed to put trials first
(`transpose((2, 0, 1))`, lines 171-172: entry `(i, j)` of the result ranges
over `i` along the original axis 2), and the responses are reduced over
exactly the listed time bins with `np.sum` when `avg` is `False` and
`np.mean` when `avg` is `True` (lines 174-176); for `'PlosCB19_V1'` the
responses are left unreduced. -/
theorem claim8_time_bin_reduction :
    (∀ t : Nat, expandTBS (.inl t) = List.range t) ∧
    (∀ (dataset : String) (tbs : List Nat) (avg : Bool)
       (a b : List (List (List ℚ))),
      dataset ≠ "PlosCB19_V1" →
      ∃ P Q, processPair dataset tbs avg (.dim3 a) (.dim3 b)
          = .ok (.dim2 P, .dim2 Q) ∧
        (rect3 a = true → ∀ i j, i < (dims3 a).2.2 → j < (dims3 a).1 →
          (P.getD i []).getD j 0
            = npAgg avg (tbs.map (fun bn => get3 a j bn i))) ∧
        (rect3 b = true → ∀ i j, i < (dims3 b).2.2 → j < (dims3 b).1 →
          (Q.getD i []).getD j 0
            = npAgg avg (tbs.map (fun bn => get3 b j bn i)))) ∧
    (∀ (tbs : List Nat) (avg : Bool) (tr te : NpArr),
      processPair "PlosCB19_V1" tbs avg tr te = .ok (tr, te)) := by
  refine ⟨fun t => rfl, ?_, ?_⟩
  · intro dataset tbs avg a b hd
    refine ⟨reduceBins avg tbs a, reduceBins avg tbs b, ?_, ?_, ?_⟩
    · unfold processPair
      rw [if_neg hd]
    · intro hr i j hi hj
      exact reduceBins_entry avg tbs a i j hr hi hj
    · intro hr i j hi hj
      exact reduceBins_entry avg tbs b i j hr hi hj
  · intro tbs avg tr te
    unfold processPair
    rw [if_pos rfl]

/-- C8 witness: the reduction evaluated on a concrete 2×2×2 array with
`time_bins_sum = 2` (an int, expanded to `range 2`). -/
theorem claim8_witness :
    expandTBS (.inl 2) = List.range 2 ∧
    ("CSRF19_V1" : String) ≠ "PlosCB19_V1" ∧
    rect3 witArr3 = true ∧ 0 < (dims3 witArr3).2.2 ∧ 0 < (dims3 witArr3).1 ∧
    (∃ P Q, processPair "CSRF19_V1" (expandTBS (.inl 2)) false
        (.dim3 witArr3) (.dim3 witArr3) = .ok (.dim2 P, .dim2 Q) ∧
      (rect3 witArr3 = true →
        ∀ i j, i < (dims3 witArr3).2.2 → j < (dims3 witArr3).1 →
        (P.getD i []).getD j 0
          = npAgg false ((expandTBS (.inl 2)).map
              (fun bn => get3 witArr3 j bn i))) ∧
      (rect3 witArr3 = true →
        ∀ i j, i < (dims3 witArr3).2.2 → j < (dims3 witArr3).1 →
        (Q.getD i []).getD j 0
          = npAgg false ((expandTBS (.inl 2)).map
              (fun bn => get3 witArr3 j bn i)))) :=
  ⟨claim8_time_bin_reduction.1 2, by decide, by decide, by decide, by decide,
   claim8_time_bin_reduction.2.1 "CSRF19_V1" (expandTBS (.inl 2)) false
     witArr3 witArr3 (by decide)⟩

/-- C7: in `monkey_static_loader`, `monkey_mua_sua_loader` and
`monkey_static_loader_closed_loop`, an integer crop argument `c` is
normalized to `[(c, c), (c, c)]` (lines 90-91, 298-299, 561-562) before the
`ImageCache` is constructed, while a crop given as a list of two
`(side, side)` tuples is passed to the cache unchanged; every `ImageCache`
the first two loaders allocate carries exactly that crop (for
`monkey_static_loader` when `stimulus_location` is `None`, which otherwise
rewrites the crop on line 94), and the main cache of the closed-loop loader
is its first allocation effect with that crop. -/
theorem claim7_crop_normalisation :
    (∀ c : Int, normalizeCrop (.int c) = [(c, c), (c, c)]) ∧
    (∀ l : CropQ, normalizeCrop (.tuples l) = l) ∧
    (∀ (ext : Ext) (A : MSLArgs) (top : PyDict (PyDict Loader))
       (allocs : List CacheSpec) (cs : CacheSpec),
      A.stimulus_location = none →
      monkeyStaticLoader ext A = .ok (.loaders top allocs) →
      cs ∈ allocs → cs.crop = normalizeCrop A.crop) ∧
    (∀ (ext : Ext) (B : MuaArgs) (top : PyDict (PyDict Loader))
       (allocs : List CacheSpec) (cs : CacheSpec),
      monkeyMuaSuaLoader ext B = .ok (.loaders top allocs) →
      cs ∈ allocs → cs.crop = normalizeCrop B.crop) ∧
    (∀ (ext : Ext) (A : CLArgs),
      (A.include_mei_training && A.include_control_training) = false →
      (A.statsExists && A.return_data_info) = false →
      (closedLoopLoader ext A).trace.head?
        = some (.allocCache (normalizeCrop A.crop))) := by
  refine ⟨fun c => rfl, fun l => rfl, ?_, ?_, ?_⟩
  · intro ext A top allocs cs hstim h hcs
    by_cases hrdi : A.return_data_info = true
    · exact absurd (monkeyStaticLoader_rdi_true ext A _ hrdi h) (by simp)
    · obtain ⟨cache, top2, stOut, _, hcrop, _, hr⟩ :=
        monkeyStaticLoader_ok_elim ext A _ (by simpa using hrdi) h
      rw [hstim] at hcrop
      simp only [MSLOut.loaders.injEq] at hr
      rw [hr.2, List.mem_singleton] at hcs
      rw [hcs, hcrop]
  · intro ext B top allocs cs h hcs
    by_cases hrdi : B.return_data_info = true
    · exact absurd (monkeyMuaSuaLoader_rdi_true ext B _ hrdi h) (by simp)
    · obtain ⟨cache, top2, stOut, _, hcrop, _, hr⟩ :=
        monkeyMuaSuaLoader_ok_elim ext B _ (by simpa using hrdi) h
      simp only [MSLOut.loaders.injEq] at hr
      rw [hr.2, List.mem_singleton] at hcs
      rw [hcs, hcrop]
  · intro ext A hflags hstats
    unfold closedLoopLoader
    simp only [hflags, hstats, Bool.false_eq_true, if_false]
    cases hl : (clLoop ext (normalizeCrop A.crop)
        (A.include_mei_training || A.include_control_training)
        (match A.stimulus_location with
         | .inl o => A.sessions.map (fun _ => o)
         | .inr l => l) A.sessions 0).2 with
    | some e => rfl
    | none =>
      dsimp only
      by_cases hs : (A.store_data_info && !A.statsExists) = true
      · rw [if_pos hs]
        by_cases he : A.sessions.isEmpty = true
        · rw [if_pos he]
          rfl
        · rw [if_neg he]
          rfl
      · rw [if_neg hs]
        by_cases hrdi : A.return_data_info = true
        · rw [if_pos hrdi]
          rfl
        · rw [if_neg hrdi]
          rfl

/-- C7 witness: the three loaders evaluated on concrete arguments. -/
theorem claim7_witness :
    normalizeCrop (.int 10) = [(10, 10), (10, 10)] ∧
    normalizeCrop (.tuples [(3, 4), (5, 6)]) = [(3, 4), (5, 6)] ∧
    witMSLArgs.stimulus_location = none ∧
    monkeyStaticLoader witExt witMSLArgs
      = .ok (.loaders witTop [witCache]) ∧
    witCache.crop = normalizeCrop witMSLArgs.crop ∧
    monkeyMuaSuaLoader witExt witMuaArgs
      = .ok (.loaders witMuaTop [witMuaCache]) ∧
    witMuaCache.crop = normalizeCrop witMuaArgs.crop ∧
    (closedLoopLoader witExt witCLArgs2).trace.head?
      = some (.allocCache (normalizeCrop witCLArgs2.crop)) :=
  ⟨claim7_crop_normalisation.1 10,
   claim7_crop_normalisation.2.1 [(3, 4), (5, 6)],
   rfl, rfl,
   claim7_crop_normalisation.2.2.1 witExt witMSLArgs witTop [witCache]
     witCache rfl rfl (by simp),
   rfl,
   claim7_crop_normalisation.2.2.2.1 witExt witMuaArgs witMuaTop
     [witMuaCache] witMuaCache rfl (by simp),
   claim7_crop_normalisation.2.2.2.2 witExt witCLArgs2 rfl rfl⟩

/-- Every loader of the empty initial dict satisfies any predicate. -/
theorem allLoaders_emptyTop (P : Loader → Prop) : allLoaders P emptyTop := by
  intro p hp q hq
  have hp2 : p.2 = [] := by
    unfold emptyTop at hp
    rcases List.mem_cons.mp hp with h | h2
    · rw [h]
    · rcases List.mem_cons.mp h2 with h | h3
      · rw [h]
      · rcases List.mem_cons.mp h3 with h | h4
        · rw [h]
        · simp at h4
  rw [hp2] at hq
  simp at hq

/-- Every loader built by `muaStep` references the cache it was given. -/
theorem muaStep_cacheId (ext : Ext) (A : MuaArgs) (tbs : List Nat)
    (allT allV : List Int) (cid : Nat) (st : Unit) (i : Nat) (s : Session)
    (tr va te : Loader) (st2 : Unit)
    (h : muaStep ext A tbs allT allV cid st i s = .ok (tr, va, te, st2)) :
    tr.cacheId = cid ∧ va.cacheId = cid ∧ te.cacheId = cid := by
  unfold muaStep at h
  dsimp only at h
  split at h
  · exact absurd h (by simp)
  · split at h
    · exact absurd h (by simp)
    · split at h
      · exact absurd h (by simp)
      · simp only [Except.ok.injEq, Prod.mk.injEq] at h
        obtain ⟨h1, h2, h3, _⟩ := h
        exact ⟨by rw [← h1], by rw [← h2], by rw [← h3]⟩

/-- C1: with `return_data_info=False` (and pairwise-distinct session ids —
the documented input format is one pickle file per session), both
`monkey_static_loader` and `monkey_mua_sua_loader` return a nested dict
with exactly the top-level keys `train`, `validation` and `test`, and under
each of these exactly one dataloader per neuronal data file, stored under
the data key `str(raw_data['session_id'])`. -/
theorem claim1_loader_structure :
    (∀ (ext : Ext) (A : MSLArgs) (r : MSLOut),
      A.return_data_info = false →
      (A.files.map (fun s => toString s.session_id)).Nodup →
      monkeyStaticLoader ext A = .ok r →
      ∃ top allocs, r = .loaders top allocs ∧
        top.map Prod.fst = ["train", "validation", "test"] ∧
        ∀ nm, nm = "train" ∨ nm = "validation" ∨ nm = "test" →
          (getInner top nm).map Prod.fst
            = A.files.map (fun s => toString s.session_id)) ∧
    (∀ (ext : Ext) (B : MuaArgs) (r : MSLOut),
      B.return_data_info = false →
      (B.files.map (fun s => toString s.session_id)).Nodup →
      monkeyMuaSuaLoader ext B = .ok r →
      ∃ top allocs, r = .loaders top allocs ∧
        top.map Prod.fst = ["train", "validation", "test"] ∧
        ∀ nm, nm = "train" ∨ nm = "validation" ∨ nm = "test" →
          (getInner top nm).map Prod.fst
            = B.files.map (fun s => toString s.session_id)) := by
  constructor
  · intro ext A r hrdi hnd h
    obtain ⟨cache, top, stOut, _, _, hl, hr⟩ :=
      monkeyStaticLoader_ok_elim ext A r hrdi h
    obtain ⟨hko, hgo⟩ := loopSessions_keys _ A.files 0 _ emptyTop top stOut hl
      (by rfl)
      (by
        intro nm hnm
        have he : getInner emptyTop nm = [] := by
          rcases hnm with h1 | h1 | h1 <;> subst h1 <;> rfl
        rw [he]
        simpa using hnd)
    refine ⟨top, [cache], hr, hko, ?_⟩
    intro nm hnm
    rw [hgo nm hnm]
    have he : getInner emptyTop nm = [] := by
      rcases hnm with h1 | h1 | h1 <;> subst h1 <;> rfl
    rw [he]
    rfl
  · intro ext B r hrdi hnd h
    obtain ⟨cache, top, stOut, _, _, hl, hr⟩ :=
      monkeyMuaSuaLoader_ok_elim ext B r hrdi h
    obtain ⟨hko, hgo⟩ := loopSessions_keys _ B.files 0 _ emptyTop top stOut hl
      (by rfl)
      (by
        intro nm hnm
        have he : getInner emptyTop nm = [] := by
          rcases hnm with h1 | h1 | h1 <;> subst h1 <;> rfl
        rw [he]
        simpa using hnd)
    refine ⟨top, [cache], hr, hko, ?_⟩
    intro nm hnm
    rw [hgo nm hnm]
    have he : getInner emptyTop nm = [] := by
      rcases hnm with h1 | h1 | h1 <;> subst h1 <;> rfl
    rw [he]
    rfl

/-- C1 witness: both loaders evaluated on one-session arguments. -/
theorem claim1_witness :
    witMSLArgs.return_data_info = false ∧
    (witMSLArgs.files.map (fun s => toString s.session_id)).Nodup ∧
    monkeyStaticLoader witExt witMSLArgs
      = .ok (.loaders witTop [witCache]) ∧
    witMuaArgs.return_data_info = false ∧
    (witMuaArgs.files.map (fun s => toString s.session_id)).Nodup ∧
    monkeyMuaSuaLoader witExt witMuaArgs
      = .ok (.loaders witMuaTop [witMuaCache]) ∧
    (∃ top allocs, (MSLOut.loaders witTop [witCache] : MSLOut)
        = .loaders top allocs ∧
      top.map Prod.fst = ["train", "validation", "test"] ∧
      ∀ nm, nm = "train" ∨ nm = "validation" ∨ nm = "test" →
        (getInner top nm).map Prod.fst
          = witMSLArgs.files.map (fun s => toString s.session_id)) ∧
    (∃ top allocs, (MSLOut.loaders witMuaTop [witMuaCache] : MSLOut)
        = .loaders top allocs ∧
      top.map Prod.fst = ["train", "validation", "test"] ∧
      ∀ nm, nm = "train" ∨ nm = "validation" ∨ nm = "test" →
        (getInner top nm).map Prod.fst
          = witMuaArgs.files.map (fun s => toString s.session_id)) :=
  ⟨rfl, by decide, rfl, rfl, by decide, rfl,
   claim1_loader_structure.1 witExt witMSLArgs _ rfl (by decide) rfl,
   claim1_loader_structure.2 witExt witMuaArgs _ rfl (by decide) rfl⟩

/-- C6: each of `monkey_static_loader` and `monkey_mua_sua_loader`
constructs exactly one `ImageCache` per call, and every train, validation
and test loader of every session references that same cache. -/
theorem claim6_single_cache :
    (∀ (ext : Ext) (A : MSLArgs) (top : PyDict (PyDict Loader))
       (allocs : List CacheSpec),
      monkeyStaticLoader ext A = .ok (.loaders top allocs) →
      ∃ cs, allocs = [cs] ∧
        ∀ p ∈ top, ∀ q ∈ p.2, (q.2 : Loader).cacheId = cs.id) ∧
    (∀ (ext : Ext) (B : MuaArgs) (top : PyDict (PyDict Loader))
       (allocs : List CacheSpec),
      monkeyMuaSuaLoader ext B = .ok (.loaders top allocs) →
      ∃ cs, allocs = [cs] ∧
        ∀ p ∈ top, ∀ q ∈ p.2, (q.2 : Loader).cacheId = cs.id) := by
  constructor
  · intro ext A top allocs h
    by_cases hrdi : A.return_data_info = true
    · exact absurd (monkeyStaticLoader_rdi_true ext A _ hrdi h) (by simp)
    · obtain ⟨cache, top2, stOut, _, _, hl, hr⟩ :=
        monkeyStaticLoader_ok_elim ext A _ (by simpa using hrdi) h
      simp only [MSLOut.loaders.injEq] at hr
      obtain ⟨htop, hal⟩ := hr
      refine ⟨cache, hal, ?_⟩
      rw [htop]
      exact loopSessions_allLoaders _ (fun l => l.cacheId = cache.id)
        (by
          intro st i s tr va te st2 hstep0
          obtain ⟨frac, ids, rows, tIds, tRows, _, _, htr, hva, hte⟩ :=
            mslStep_ok_elim _ _ _ _ _ _ _ _ _ _ _ _ _ _ hstep0
          exact ⟨by rw [htr], by rw [hva], by rw [hte]⟩)
        A.files 0 _ emptyTop top2 stOut hl
        (allLoaders_emptyTop _)
  · intro ext B top allocs h
    by_cases hrdi : B.return_data_info = true
    · exact absurd (monkeyMuaSuaLoader_rdi_true ext B _ hrdi h) (by simp)
    · obtain ⟨cache, top2, stOut, _, _, hl, hr⟩ :=
        monkeyMuaSuaLoader_ok_elim ext B _ (by simpa using hrdi) h
      simp only [MSLOut.loaders.injEq] at hr
      obtain ⟨htop, hal⟩ := hr
      refine ⟨cache, hal, ?_⟩
      rw [htop]
      exact loopSessions_allLoaders _ (fun l => l.cacheId = cache.id)
        (by
          intro st i s tr va te st2 hstep0
          exact muaStep_cacheId _ _ _ _ _ _ _ _ _ _ _ _ _ hstep0)
        B.files 0 _ emptyTop top2 stOut hl
        (allLoaders_emptyTop _)

/-- C6 witness: the single-cache property evaluated on the concrete calls
of `claim1_witness`. -/
theorem claim6_witness :
    monkeyStaticLoader witExt witMSLArgs
      = .ok (.loaders witTop [witCache]) ∧
    monkeyMuaSuaLoader witExt witMuaArgs
      = .ok (.loaders witMuaTop [witMuaCache]) ∧
    (∃ cs, [witCache] = [cs] ∧
      ∀ p ∈ witTop, ∀ q ∈ p.2, (q.2 : Loader).cacheId = cs.id) ∧
    (∃ cs, [witMuaCache] = [cs] ∧
      ∀ p ∈ witMuaTop, ∀ q ∈ p.2, (q.2 : Loader).cacheId = cs.id) :=
  ⟨rfl, rfl,
   claim6_single_cache.1 witExt witMSLArgs witTop [witCache] rfl,
   claim6_single_cache.2 witExt witMuaArgs witMuaTop [witMuaCache] rfl⟩

/-- C2: for every session processed by `monkey_static_loader`, the
train/validation split is a selection by membership: the validation loader
receives exactly the (post-`image_frac`) training image ids, and their
response rows, that lie in `all_validation_ids`, the train loader exactly
those in `all_train_ids`; when the two id pools are disjoint the resulting
per-session id sets are disjoint, and an id lying in neither pool appears
in neither loader. -/
theorem claim2_split_membership
    (ext : Ext) (A : MSLArgs) (tbs : List Nat) (fracs : List ℚ)
    (allT allV : List Int) (cid : Nat) (seedIn : Option Int) (i : Nat)
    (s : Session) (frac : ℚ) (ids : List Int) (rows : NpArr)
    (testIds : List Int) (testRows : NpArr) (seedOut : Option Int)
    (tr va te : Loader) (seedOut2 : Option Int)
    (hf : fracs[i]? = some frac)
    (hp : mslPrepared ext A.dataset tbs A.avg A.randomize_image_selection
      frac seedIn s = .ok (ids, rows, testIds, testRows, seedOut))
    (hs : mslStep ext A tbs fracs allT allV cid seedIn i s
      = .ok (tr, va, te, seedOut2)) :
    va.ids = ids.filter (fun x => decide (x ∈ allV)) ∧
    tr.ids = ids.filter (fun x => decide (x ∈ allT)) ∧
    (∀ m : List (List ℚ), rows = .dim2 m → m.length = ids.length →
      va.rows = .dim2 (((ids.zip m).filter
        (fun p => decide (p.1 ∈ allV))).map Prod.snd) ∧
      tr.rows = .dim2 (((ids.zip m).filter
        (fun p => decide (p.1 ∈ allT))).map Prod.snd)) ∧
    (allT.Disjoint allV →
      (∀ x ∈ tr.ids, ¬ x ∈ va.ids) ∧
      (∀ x : Int, ¬ x ∈ allT → ¬ x ∈ allV →
        ¬ x ∈ tr.ids ∧ ¬ x ∈ va.ids)) := by
  obtain ⟨frac2, ids2, rows2, tIds2, tRows2, hf2, hp2, htr, hva, hte⟩ :=
    mslStep_ok_elim _ _ _ _ _ _ _ _ _ _ _ _ _ _ hs
  rw [hf] at hf2
  have hfe : frac2 = frac := (Option.some.inj hf2).symm
  subst hfe
  rw [hp] at hp2
  simp only [Except.ok.injEq, Prod.mk.injEq] at hp2
  obtain ⟨he1, he2, he3, he4, _⟩ := hp2
  subst he1 he2 he3 he4
  have hvids : va.ids = ids.filter (fun x => decide (x ∈ allV)) := by
    rw [hva]
    exact maskSel_npIsin_self ids allV
  have htids : tr.ids = ids.filter (fun x => decide (x ∈ allT)) := by
    rw [htr]
    exact maskSel_npIsin_self ids allT
  refine ⟨hvids, htids, ?_, ?_⟩
  · intro m hm hlen
    constructor
    · rw [hva, hm]
      show NpArr.dim2 (maskSel (npIsin ids allV) m) = _
      rw [maskSel_npIsin_zip ids allV m hlen]
    · rw [htr, hm]
      show NpArr.dim2 (maskSel (npIsin ids allT) m) = _
      rw [maskSel_npIsin_zip ids allT m hlen]
  · intro hdisj
    constructor
    · intro x hx hx2
      rw [htids] at hx
      rw [hvids] at hx2
      have h1 := List.of_mem_filter hx
      have h2 := List.of_mem_filter hx2
      exact hdisj (by simpa using h1) (by simpa using h2)
    · intro x hxT hxV
      constructor
      · rw [htids]
        intro hx
        exact hxT (by simpa using List.of_mem_filter hx)
      · rw [hvids]
        intro hx
        exact hxV (by simpa using List.of_mem_filter hx)

/-- C2 witness: the split evaluated on the concrete session of
`claim1_witness` with id pools `[0]` and `[1]`. -/
theorem claim2_witness :
    ([(1 : ℚ)])[0]? = some 1 ∧
    mslPrepared witExt witMSLArgs.dataset [0] witMSLArgs.avg
      witMSLArgs.randomize_image_selection 1 none witSession
      = .ok ([0, 1], .dim2 [[5], [6]], [2], .dim2 [[9]], none) ∧
    mslStep witExt witMSLArgs [0] [1] [0] [1] 0 none 0 witSession
      = .ok (witTrainLoader, witValLoader, witTestLoader, none) ∧
    (witValLoader.ids = ([0, 1] : List Int).filter
        (fun x => decide (x ∈ ([1] : List Int))) ∧
      witTrainLoader.ids = ([0, 1] : List Int).filter
        (fun x => decide (x ∈ ([0] : List Int))) ∧
      (∀ m : List (List ℚ), (NpArr.dim2 [[5], [6]] : NpArr) = .dim2 m →
        m.length = ([0, 1] : List Int).length →
        witValLoader.rows = .dim2 (((([0, 1] : List Int).zip m).filter
          (fun p => decide (p.1 ∈ ([1] : List Int)))).map Prod.snd) ∧
        witTrainLoader.rows = .dim2 (((([0, 1] : List Int).zip m).filter
          (fun p => decide (p.1 ∈ ([0] : List Int)))).map Prod.snd)) ∧
      (([0] : List Int).Disjoint ([1] : List Int) →
        (∀ x ∈ witTrainLoader.ids, ¬ x ∈ witValLoader.ids) ∧
        (∀ x : Int, ¬ x ∈ ([0] : List Int) → ¬ x ∈ ([1] : List Int) →
          ¬ x ∈ witTrainLoader.ids ∧ ¬ x ∈ witValLoader.ids))) :=
  ⟨rfl, rfl, rfl,
   claim2_split_membership witExt witMSLArgs [0] [1] [0] [1] 0 none 0
     witSession 1 [0, 1] (.dim2 [[5], [6]]) [2] (.dim2 [[9]]) none
     witTrainLoader witValLoader witTestLoader none rfl rfl rfl⟩

/-- C3 (amended): `forward(x, data_key=k)` applies exactly the readout
registered under the session key `k` (for the `MultiReadout` subclasses,
the `ModuleDict` readouts with their own `forward`, and
`MultipleSharedMultiHeadAttention2d`); when `data_key` is `None`, the
default dispatch applies the single entry when the `_modules` registry
holds exactly one entry in total — for containers whose only submodules are
the per-session readouts this is the single readout, while for
`MultipleSharedMultiHeadAttention2d` the registry also counts the
positional-encoding / layer-norm / embedding submodules, so the default
only fires when none of those were constructed (see
`claim3_counterexample`). -/
theorem claim3_dispatch :
    (∀ (α β : Type) (d : PyDict (α → β)) (x : α) (k : String) (f : α → β),
      pyGet d k = some f →
      multiReadoutForward d x (some k) = .ok (f x)) ∧
    (∀ (α β : Type) (k : String) (f : α → β) (x : α),
      multiReadoutForward [(k, f)] x none = .ok (f x)) ∧
    (∀ (m : MSMHA) (x : T4) (c w h : Nat) (k : String) (r : T4 → T4 → T2)
       (kv : T4 × T4),
      msmhaKV m x c w h = .ok kv →
      pyGet m.modules k = some (.readout r) →
      msmhaForward m x c w h (some k) = .ok (r kv.1 kv.2)) ∧
    (∀ (m : MSMHA) (x : T4) (c w h : Nat) (k : String) (r : T4 → T4 → T2)
       (kv : T4 × T4),
      msmhaKV m x c w h = .ok kv →
      m.modules = [(k, .readout r)] →
      msmhaForward m x c w h none = .ok (r kv.1 kv.2)) := by
  refine ⟨?_, ?_, ?_, ?_⟩
  · intro α β d x k f hget
    unfold multiReadoutForward
    dsimp only
    rw [hget]
  · intro α β k f x
    have h1 : pyGet [(k, f)] k = some f := by rw [pyGet_cons]; simp
    unfold multiReadoutForward
    simp only [List.length_cons, List.length_nil, List.head?_cons,
      Option.map_some, Nat.zero_add]
    rw [if_pos (show ((1 == 1) = true) from rfl)]
    rw [show Option.map Prod.fst (some (k, f)) = some k from rfl]
    dsimp only
    rw [h1]
  · intro m x c w h k r kv hkv hget
    unfold msmhaForward
    rw [hkv]
    dsimp only
    rw [hget]
  · intro m x c w h k r kv hkv hmod
    have h1 : pyGet [(k, MModule.readout r)] k = some (MModule.readout r) :=
      by rw [pyGet_cons]; simp
    unfold msmhaForward
    rw [hkv]
    dsimp only
    rw [hmod]
    simp only [List.length_cons, List.length_nil, List.head?_cons,
      Option.map_some, Nat.zero_add]
    rw [if_pos (show ((1 == 1) = true) from rfl)]
    rw [show Option.map Prod.fst (some (k, MModule.readout r)) = some k
      from rfl]
    dsimp only
    rw [h1]

/-- C3 counterexample: the claim as stated — "when `data_key` is `None` and
the container holds exactly one readout, that single readout is applied" —
fails on `MultipleSharedMultiHeadAttention2d`.  With the `use_pos_enc=True`
default, `__init__` registers the positional embedding in the same
`_modules` registry that `len(self)`/`keys()` range over
(`nn.Module.__setattr__` stores every `nn.Module`-valued attribute there),
so a container holding exactly one readout has `len(self) == 2`:
`forward(x, data_key=None)` raises `KeyError` through `self[None]` instead
of applying the readout. -/
theorem claim3_counterexample :
    msmhaInit witDeps witGmo witShapes witNeurons true 1 false false false
      false none none = .ok cexC3M ∧
    cexC3M.modules.countP (fun p => p.2.isReadout) = 1 ∧
    msmhaForward cexC3M cexX 1 1 1 none = .error .keyError :=
  ⟨rfl, rfl, rfl⟩

/-- C3 witness: the dispatch parts evaluated on concrete containers. -/
theorem claim3_witness :
    pyGet witDispatch "a" = some (fun n => n + 1) ∧
    multiReadoutForward witDispatch 3 (some "a") = .ok 4 ∧
    multiReadoutForward [("a", fun n : Nat => n + 1)] 3 none = .ok 4 ∧
    msmhaKV witMSMHAsingle cexX 1 1 1
      = .ok (rearrChanToHeads 1 (flatten23 1 cexX),
             rearrChanToHeads 1 (flatten23 1 cexX)) ∧
    pyGet witMSMHAsingle.modules "s"
      = some (.readout (witDeps.mkReadout [1, 1, 1] 1)) ∧
    msmhaForward witMSMHAsingle cexX 1 1 1 (some "s")
      = .ok (witDeps.mkReadout [1, 1, 1] 1
          (rearrChanToHeads 1 (flatten23 1 cexX))
          (rearrChanToHeads 1 (flatten23 1 cexX))) ∧
    witMSMHAsingle.modules
      = [("s", .readout (witDeps.mkReadout [1, 1, 1] 1))] ∧
    msmhaForward witMSMHAsingle cexX 1 1 1 none
      = .ok (witDeps.mkReadout [1, 1, 1] 1
          (rearrChanToHeads 1 (flatten23 1 cexX))
          (rearrChanToHeads 1 (flatten23 1 cexX))) :=
  ⟨rfl,
   claim3_dispatch.1 Nat Nat witDispatch 3 "a" (fun n => n + 1) rfl,
   claim3_dispatch.2.1 Nat Nat "a" (fun n => n + 1) 3,
   rfl, rfl,
   claim3_dispatch.2.2.1 witMSMHAsingle cexX 1 1 1 "s"
     (witDeps.mkReadout [1, 1, 1] 1) _ rfl rfl,
   rfl,
   claim3_dispatch.2.2.2 witMSMHAsingle cexX 1 1 1 "s"
     (witDeps.mkReadout [1, 1, 1] 1) _ rfl rfl⟩

/-- C4: each readout factory (`MultiplePointPooled2d`,
`MultipleGaussian2d`, `MultipleFullGaussian2d`; the remaining `Multiple*`
constructors run the same `for k in n_neurons_dict` loop) registers exactly
one readout per key of `n_neurons_dict`, with output dimension
`n_neurons_dict[k]` and input shape
`get_module_output(core, in_shape_dict[k])[1:]` — one per-session readout
fed by the single shared core (`gmo` is `get_module_output(core, ·)`). -/
theorem claim4_factory_registration :
    (∀ (gmo : Shape → Shape) (isd : PyDict Shape) (nnd : PyDict Nat)
       (out : PyDict Readout),
      (nnd.map Prod.fst).Nodup →
      multiplePointPooled2dInit gmo isd nnd = .ok out →
      out.map Prod.fst = nnd.map Prod.fst ∧
      ∀ kv ∈ nnd, ∃ s, pyGet isd kv.1 = some s ∧
        pyGet out kv.1 = some ⟨(gmo s).tail, kv.2⟩) ∧
    (∀ (gmo : Shape → Shape) (isd : PyDict Shape) (nnd : PyDict Nat)
       (out : PyDict Readout),
      (nnd.map Prod.fst).Nodup →
      multipleGaussian2dInit gmo isd nnd = .ok out →
      out.map Prod.fst = nnd.map Prod.fst ∧
      ∀ kv ∈ nnd, ∃ s, pyGet isd kv.1 = some s ∧
        pyGet out kv.1 = some ⟨(gmo s).tail, kv.2⟩) ∧
    (∀ (gmo : Shape → Shape) (isd : PyDict Shape) (sg : PyDict Unit)
       (smi : PyDict (List Nat)) (gmp : Option Unit) (gmpT : Option String)
       (shF shG : Bool) (nnd : PyDict Nat) (out : PyDict FGReadout),
      (nnd.map Prod.fst).Nodup →
      multipleFullGaussian2dInit gmo isd sg smi gmp gmpT shF shG nnd
        = .ok out →
      out.map Prod.fst = nnd.map Prod.fst ∧
      ∀ kv ∈ nnd, ∃ s r, pyGet isd kv.1 = some s ∧
        pyGet out kv.1 = some r ∧
        r.in_shape = (gmo s).tail ∧ r.outdims = kv.2) := by
  refine ⟨?_, ?_, ?_⟩
  · intro gmo isd nnd out hnd h
    obtain ⟨hko, _, hmem⟩ := moduleDictLoop_spec gmo isd nnd [] out h
      (by simpa using hnd)
    exact ⟨by simpa using hko, hmem⟩
  · intro gmo isd nnd out hnd h
    obtain ⟨hko, _, hmem⟩ := moduleDictLoop_spec gmo isd nnd [] out h
      (by simpa using hnd)
    exact ⟨by simpa using hko, hmem⟩
  · intro gmo isd sg smi gmp gmpT shF shG nnd out hnd h
    obtain ⟨hko, _, hmem⟩ := fgLoop_spec gmo isd sg smi gmp gmpT shF shG nnd
      none 0 [] out h (by simpa using hnd)
    exact ⟨by simpa using hko, hmem⟩

/-- C4 witness: the three factories evaluated on two sessions. -/
theorem claim4_witness :
    (witNeurons2.map Prod.fst).Nodup ∧
    multiplePointPooled2dInit witGmo witShapes2 witNeurons2
      = .ok witReadouts ∧
    multipleGaussian2dInit witGmo witShapes2 witNeurons2
      = .ok witReadouts ∧
    multipleFullGaussian2dInit witGmo witShapes2 [] [] none none false false
      witNeurons2 = .ok witFGReadouts ∧
    (witReadouts.map Prod.fst = witNeurons2.map Prod.fst ∧
      ∀ kv ∈ witNeurons2, ∃ s, pyGet witShapes2 kv.1 = some s ∧
        pyGet witReadouts kv.1 = some ⟨(witGmo s).tail, kv.2⟩) ∧
    (witFGReadouts.map Prod.fst = witNeurons2.map Prod.fst ∧
      ∀ kv ∈ witNeurons2, ∃ s r, pyGet witShapes2 kv.1 = some s ∧
        pyGet witFGReadouts kv.1 = some r ∧
        r.in_shape = (witGmo s).tail ∧ r.outdims = kv.2) :=
  ⟨by decide, rfl, rfl, rfl,
   claim4_factory_registration.1 witGmo witShapes2 witNeurons2 witReadouts
     (by decide) rfl,
   claim4_factory_registration.2.2 witGmo witShapes2 [] [] none none false
     false witNeurons2 witFGReadouts (by decide) rfl⟩

/-- C5 (amended): `MultipleSharedMultiHeadAttention2d.forward` flattens the
`(i, c, w, h)` input to `(i, c, w*h)`, applies the positional embedding
(when `use_pos_enc`) and the layer norm (when configured) to obtain
`x_embed`; **when `key_embedding` is set** it derives key — and value too
when additionally `value_embedding` — from `x_embed` via the shared linear
embedding, otherwise key is `x_embed` itself and value is taken from the
flattened unembedded `x` (in particular, `value_embedding` alone is
ignored); both are rearranged to `(i, heads, d, s)` with `heads * d` the
channel count of the respective tensor and `s = w*h`, and the session
readout is applied to `(key, value)`. -/
theorem claim5_attention_forward :
    (∀ (m : MSMHA) (x : T4) (h : Nat) (pe nf : T3 → T3),
      m.use_pos_enc = true → posOf m = some pe → normOf m = some nf →
      msmhaXEmbed m x h = .ok (nf (pe (flatten23 h x)))) ∧
    (∀ (m : MSMHA) (x : T4) (h : Nat) (pe : T3 → T3),
      m.use_pos_enc = true → posOf m = some pe → normOf m = none →
      msmhaXEmbed m x h = .ok (pe (flatten23 h x))) ∧
    (∀ (m : MSMHA) (x : T4) (h : Nat),
      m.use_pos_enc = false → normOf m = none →
      msmhaXEmbed m x h = .ok (flatten23 h x)) ∧
    (∀ (m : MSMHA) (x : T4) (c w h : Nat) (xe : T3) (fkv : T2 → T2)
       (k : String) (r : T4 → T4 → T2),
      m.key_embedding = true → m.value_embedding = true →
      kvOf m = some fkv → msmhaXEmbed m x h = .ok xe →
      m.cOut % m.heads = 0 →
      pyGet m.modules k = some (.readout r) →
      msmhaForward m x c w h (some k) = .ok (r
        (fun i hd d s => fkv
          (fun rr cc => xe (rr / (w * h)) cc (rr % (w * h)))
          (i * (w * h) + s) (hd * (m.cOut / m.heads) + d))
        (fun i hd d s => fkv
          (fun rr cc => xe (rr / (w * h)) cc (rr % (w * h)))
          (i * (w * h) + s) (m.cOut + (hd * (m.cOut / m.heads) + d))))) ∧
    (∀ (m : MSMHA) (x : T4) (c w h : Nat) (xe : T3) (fk : T2 → T2)
       (k : String) (r : T4 → T4 → T2),
      m.key_embedding = true → m.value_embedding = false →
      keyFnOf m = some fk → msmhaXEmbed m x h = .ok xe →
      m.cOut % m.heads = 0 → c % m.heads = 0 →
      pyGet m.modules k = some (.readout r) →
      msmhaForward m x c w h (some k) = .ok (r
        (fun i hd d s => fk
          (fun rr cc => xe (rr / (w * h)) cc (rr % (w * h)))
          (i * (w * h) + s) (hd * (m.cOut / m.heads) + d))
        (fun i hd d s => x i (hd * (c / m.heads) + d) (s / h) (s % h)))) ∧
    (∀ (m : MSMHA) (x : T4) (c w h : Nat) (xe : T3)
       (k : String) (r : T4 → T4 → T2),
      m.key_embedding = false →
      msmhaXEmbed m x h = .ok xe →
      c % m.heads = 0 →
      pyGet m.modules k = some (.readout r) →
      msmhaForward m x c w h (some k) = .ok (r
        (fun i hd d s => xe i (hd * (c / m.heads) + d) s)
        (fun i hd d s => x i (hd * (c / m.heads) + d) (s / h) (s % h)))) := by
  refine ⟨?_, ?_, ?_, ?_, ?_, ?_⟩
  · intro m x h pe nf hupe hpos hnorm
    unfold msmhaXEmbed
    rw [hupe]
    dsimp only
    rw [hpos]
    dsimp only
    rw [hnorm]
    rw [if_pos rfl]
  · intro m x h pe hupe hpos hnorm
    unfold msmhaXEmbed
    rw [hupe]
    dsimp only
    rw [hpos]
    dsimp only
    rw [hnorm]
    rw [if_pos rfl]
  · intro m x h hupe hnorm
    unfold msmhaXEmbed
    rw [hupe]
    dsimp only
    rw [hnorm]
    rw [if_neg (by simp)]
  · intro m x c w h xe fkv k r hke hve hkv hxe hmod hget
    unfold msmhaForward msmhaKV
    rw [hxe]
    dsimp only
    rw [hke, hve]
    rw [if_pos (show ((true && true) = true) from rfl)]
    rw [hkv]
    dsimp only
    rw [hmod]
    rw [if_neg (show ¬((0 : Nat) ≠ 0) from by simp)]
    dsimp only
    rw [hget]
    rfl
  · intro m x c w h xe fk k r hke hve hkeyf hxe hmod1 hmod2 hget
    unfold msmhaForward msmhaKV
    rw [hxe]
    dsimp only
    rw [hke, hve]
    rw [if_neg (show ¬((true && false) = true) from by simp)]
    rw [if_pos (show (true = true) from rfl)]
    rw [hkeyf]
    dsimp only
    rw [hmod1, hmod2]
    rw [if_neg (show ¬((0 : Nat) ≠ 0 ∨ (0 : Nat) ≠ 0) from by simp)]
    dsimp only
    rw [hget]
    rfl
  · intro m x c w h xe k r hke hxe hmod hget
    unfold msmhaForward msmhaKV
    rw [hxe]
    dsimp only
    rw [hke]
    rw [if_neg (show ¬((false && m.value_embedding) = true) from by simp)]
    rw [if_neg (show ¬(false = true) from by simp)]
    rw [hmod]
    rw [if_neg (show ¬((0 : Nat) ≠ 0) from by simp)]
    dsimp only
    rw [hget]
    rfl

/-- C5 counterexample: the claim as stated — key (and value, when
`value_embedding`) derived from `x_embed` via the shared linear embedding,
value from the unembedded `x` only otherwise — fails when `key_embedding`
is unset: with `key_embedding=False, value_embedding=True` the `__init__`
constructs no linear embedding at all (lines 239-242 require
`key_embedding`), and `forward` takes the value from the raw `x`
(line 290).  Concretely, on the all-ones input with a positional embedding
adding 1, every `x_embed` entry is 2, yet the readout receives the raw
value 1. -/
theorem claim5_counterexample :
    msmhaInit witDeps witGmo witShapes witNeurons true 1 false true false
      false none none = .ok cexC5M ∧
    cexC5M.value_embedding = true ∧
    cexC5M.modules.all (fun p => !p.2.isLinear) = true ∧
    msmhaXEmbed cexC5M cexX 1 = .ok cexC5Xe ∧
    cexC5Xe 0 0 0 = 2 ∧
    msmhaForward cexC5M cexX 1 1 1 (some "s") = .ok cexC5Out ∧
    cexC5Out 0 0 = 1 ∧
    (1 : ℚ) ≠ 2 :=
  ⟨rfl, rfl, rfl, rfl,
   by norm_num [cexC5Xe, witDeps, flatten23, cexX],
   rfl, rfl, by norm_num⟩

/-- C5 witness: the both-embeddings branch evaluated on a concrete
container and the all-ones input. -/
theorem claim5_witness :
    witC5M.key_embedding = true ∧
    witC5M.value_embedding = true ∧
    kvOf witC5M = some witDeps.toKvF ∧
    msmhaXEmbed witC5M cexX 1 = .ok (flatten23 1 cexX) ∧
    witC5M.cOut % witC5M.heads = 0 ∧
    pyGet witC5M.modules "s"
      = some (.readout (witDeps.mkReadout [1, 1, 1] 1)) ∧
    msmhaForward witC5M cexX 1 1 1 (some "s")
      = .ok (witDeps.mkReadout [1, 1, 1] 1
        (fun i hd d s => witDeps.toKvF
          (fun rr cc => flatten23 1 cexX (rr / (1 * 1)) cc (rr % (1 * 1)))
          (i * (1 * 1) + s) (hd * (witC5M.cOut / witC5M.heads) + d))
        (fun i hd d s => witDeps.toKvF
          (fun rr cc => flatten23 1 cexX (rr / (1 * 1)) cc (rr % (1 * 1)))
          (i * (1 * 1) + s)
          (witC5M.cOut + (hd * (witC5M.cOut / witC5M.heads) + d)))) :=
  ⟨rfl, rfl, rfl, rfl, rfl, rfl,
   claim5_attention_forward.2.2.2.1 witC5M cexX 1 1 1 (flatten23 1 cexX)
     witDeps.toKvF "s" (witDeps.mkReadout [1, 1, 1] 1) rfl rfl rfl rfl rfl
     rfl⟩

end NNVision
